import Mathlib

/-!
# Metadata reconciliation of `internal/entity/photo.go`

A shallow embedding of the provenance-tracked setters, the title synthesizer,
the keyword indexer and the label associator of the `Photo` entity, together
with the properties of them that the specification states.

Layout: the model of Go's `time.Time`, the external dependencies (`Env`), the
data model, the operations, then the theorems.
-/

set_option autoImplicit false
set_option linter.dupNamespace false

namespace Photoprism

/-! ## Go's `time.Time` -/

/-- A `time.Time` value: the instant as seconds and nanoseconds since
January 1, year 1, 00:00:00 UTC, and the offset east of UTC (in seconds)
of the location the value is presented in. -/
structure Time where
  sec : Int
  nsec : Nat
  zone : Int
deriving DecidableEq, Repr

namespace Time

/-- The zero value of `time.Time`. -/
def zero : Time := ⟨0, 0, 0⟩

/-- Go: `t.IsZero()`, the instant January 1, year 1, 00:00:00 UTC. -/
def IsZero (t : Time) : Bool := t.sec == 0 && t.nsec == 0

/-- Days elapsed since January 1, year 1 on the wall clock of the location. -/
def days (t : Time) : Int := (t.sec + t.zone) / 86400

/-- Go: the year part of `absDate`, on days counted from January 1, year 1.
Returns the year and the zero-based day within that year. -/
def yearOfDays (d : Int) : Int × Int :=
  let n400 := d / 146097
  let d1 := d - 146097 * n400
  let n100 := d1 / 36524
  let n100 := n100 - n100 / 4
  let d2 := d1 - 36524 * n100
  let n4 := d2 / 1461
  let d3 := d2 - 1461 * n4
  let n1 := d3 / 365
  let n1 := n1 - n1 / 4
  (400 * n400 + 100 * n100 + 4 * n4 + n1 + 1, d3 - 365 * n1)

/-- Go: `isLeap(year)`. -/
def isLeap (year : Int) : Bool :=
  year % 4 == 0 && (year % 100 != 0 || year % 400 == 0)

/-- Go: the table `daysBefore`, the days of a non-leap year before month `m`
starts (`m` zero-based). -/
def daysBefore (m : Int) : Int :=
  if m ≤ 0 then 0
  else if m = 1 then 31
  else if m = 2 then 59
  else if m = 3 then 90
  else if m = 4 then 120
  else if m = 5 then 151
  else if m = 6 then 181
  else if m = 7 then 212
  else if m = 8 then 243
  else if m = 9 then 273
  else if m = 10 then 304
  else if m = 11 then 334
  else 365

/-- Go: the month part of `absDate`, from the year and the zero-based day of
the year; January is 1. -/
def monthOfYearDay (year yday : Int) : Int :=
  if isLeap year && yday == 59 then 2
  else
    let day := if isLeap year && yday > 59 then yday - 1 else yday
    let month := day / 31
    if day ≥ daysBefore (month + 1) then month + 2 else month + 1

/-- Go: `t.Year()`. -/
def Year (t : Time) : Int := (yearOfDays t.days).1

/-- Go: `int(t.Month())`. -/
def Month (t : Time) : Int :=
  let yd := yearOfDays t.days
  monthOfYearDay yd.1 yd.2

/-- Go: `t.Round(time.Second)`; halfway values round up, the location is kept. -/
def RoundSecond (t : Time) : Time :=
  if 2 * t.nsec < 1000000000 then { t with nsec := 0 }
  else { t with sec := t.sec + 1, nsec := 0 }

/-- Go: `t.UTC()`, the same instant presented in UTC. -/
def UTC (t : Time) : Time := { t with zone := 0 }

/-- Go: `appendInt(b, x, 4)`, a decimal number zero-padded to four digits. -/
def pad4 (n : Nat) : String :=
  let s := toString n
  String.mk (List.replicate (4 - s.length) '0') ++ s

/-- Go: `t.Format("2006")`. -/
def FormatYear (t : Time) : String :=
  let y := t.Year
  if y < 0 then "-" ++ pad4 y.natAbs else pad4 y.natAbs

/-- The values of `time.Time` that arise from parsing and from the zone
database: nanoseconds below one second, zone offset within a day of UTC. -/
def WellFormed (t : Time) : Prop :=
  t.nsec < 1000000000 ∧ -86400 < t.zone ∧ t.zone < 86400

instance (t : Time) : Decidable t.WellFormed := by
  unfold WellFormed; exact inferInstance

end Time

/-- Go: `strings.Contains(s, sub)`. -/
def stringsContains (s sub : String) : Bool :=
  s.toList.tails.any (fun t => sub.toList.isPrefixOf t)

/-- Go: `len(s)`, the length of a string in bytes. -/
def len (s : String) : Nat := s.utf8ByteSize

/-- Go: `fmt.Sprintf("%s / %s", a, b)`. -/
def sprintf2 (a b : String) : String := a ++ " / " ++ b

/-- Go: `fmt.Sprintf("%s / %s / %s", a, b, c)`. -/
def sprintf3 (a b c : String) : String := a ++ " / " ++ b ++ " / " ++ c

/-- Go: a `float32`, as its IEEE 754 bit pattern. -/
structure Float32 where
  bits : Nat
deriving DecidableEq, Repr

/-- Go: `f == 0` on a `float32`: true of both signed zeros, false of NaN. -/
def Float32.eqZero (f : Float32) : Bool := f.bits % 2147483648 == 0

/-! ## Data model -/

/-- Go: `classify.Label`. -/
structure ClassifyLabel where
  Name : String
  Source : String
  Uncertainty : Int
  Priority : Int
  Categories : List String
deriving DecidableEq, Repr

/-- Go: `entity.Place` (place.go). -/
structure Place where
  PlaceUID : String
  LocLabel : String
  LocCity : String
  LocState : String
  LocCountry : String
  LocKeywords : String
  LocNotes : String
  LocFavorite : Bool
  PhotoCount : Int
  New : Bool
deriving DecidableEq, Repr

/-- Go: `UnknownPlace`, the default place. -/
def UnknownPlace : Place :=
  { PlaceUID := "zz", LocLabel := "Unknown", LocCity := "Unknown", LocState := "Unknown",
    LocCountry := "zz", LocKeywords := "", LocNotes := "", LocFavorite := false,
    PhotoCount := -1, New := false }

/-- Modelled from the spec: the type `Location` of location.go, the resolved
location a record points to, with its identifier, its place and its place
name. -/
structure Location where
  LocUID : String
  PlaceUID : String
  Place : Option Place
  LocName : String
  LocCategory : String
  LocSource : String
deriving DecidableEq, Repr

/-- The fields of `entity.Details` that photo.go reads. -/
structure Details where
  PhotoID : Nat
  Keywords : String
  Subject : String
  Artist : String
deriving DecidableEq, Repr

/-- Go: `entity.PhotoLabel`, a row of the (record, label) association. -/
structure PhotoLabel where
  PhotoID : Nat
  LabelID : Nat
  LabelSrc : String
  Uncertainty : Int
deriving DecidableEq, Repr

/-- Go: `entity.Photo`, with the fields the reconciliation engine reads or
writes. -/
structure Photo where
  ID : Nat
  TakenAt : Time
  TakenAtLocal : Time
  TakenSrc : String
  PhotoUID : String
  PhotoTitle : String
  TitleSrc : String
  PhotoDescription : String
  DescriptionSrc : String
  Details : Details
  TimeZone : String
  PlaceUID : String
  LocUID : String
  LocSrc : String
  PhotoLat : Float32
  PhotoLng : Float32
  PhotoAltitude : Int
  PhotoYear : Int
  PhotoMonth : Int
  PhotoQuality : Int
  Location : Option Location
  Labels : List PhotoLabel
deriving DecidableEq, Repr

/-- Go: `entity.Label`, a persisted label entity. -/
structure Label where
  ID : Nat
  LabelSlug : String
  LabelName : String
  LabelPriority : Int
  New : Bool
deriving DecidableEq, Repr

/-! ## External dependencies -/

/-- The constants and functions of other packages and files that photo.go
uses: the provenance tags, the sentinels, the text helpers of `pkg/txt`, the
label ranking of `internal/classify`, the accessors of `Location` and the
country table of `internal/maps`. Every operation takes them as a parameter,
so that what is proved holds for each implementation of them. -/
structure Env where
  SrcAuto : String
  SrcManual : String
  TitleUnknown : String
  YearUnknown : Int
  MonthUnknown : Int
  UnknownLocationUID : String
  ClipDefault : Int
  ClipDescription : Int
  Clip : String → Int → String
  Title : String → String
  Keywords : String → List String
  UniqueWords : List String → List String
  /-- Go: `labels.Title(fallback)`; a method on a slice can reorder the caller's
  elements, so the result carries the label list as it stands after the call. -/
  LabelsTitle : List ClassifyLabel → String → String × List ClassifyLabel
  LabelTitle : ClassifyLabel → String
  LocName : Location → String
  LocCity : Location → String
  LocNoCity : Location → Bool
  LocLongCity : Location → Bool
  LocCityContains : Location → String → Bool
  LocCountryName : Location → String
  CountryNames : String → String
  Slug : String → String
  UpdateLabel : List Label → Label → ClassifyLabel → List Label
  KeywordSkip : String → Bool

/-- Go: `Place.City()`. -/
def Place.City (m : Place) : String := m.LocCity

/-- Go: `Place.CountryName()`. -/
def Place.CountryName (E : Env) (m : Place) : String := E.CountryNames m.LocCountry

/-- Go: `Place.Unknown()`. -/
def Place.Unknown (m : Place) : Bool := m.PlaceUID == UnknownPlace.PlaceUID

/-! ## The record's predicates and setters -/

namespace Photo

/-- Go: `HasID`. -/
def HasID (m : Photo) : Bool := decide (m.ID > 0) && m.PhotoUID != ""

/-- Go: `LocationLoaded`. -/
def LocationLoaded (E : Env) (m : Photo) : Bool :=
  match m.Location with
  | none => false
  | some loc => loc.Place.isSome && loc.LocUID != E.UnknownLocationUID

/-- Go: `HasLatLng`. -/
def HasLatLng (m : Photo) : Bool := !m.PhotoLat.eqZero && !m.PhotoLng.eqZero

/-- Go: `NoLatLng`. -/
def NoLatLng (m : Photo) : Bool := !m.HasLatLng

/-- Go: `NoTitle`. -/
def NoTitle (m : Photo) : Bool := m.PhotoTitle == ""

/-- Go: `HasTitle`. -/
def HasTitle (m : Photo) : Bool := m.PhotoTitle != ""

/-- Go: `HasDescription`. -/
def HasDescription (m : Photo) : Bool := m.PhotoDescription != ""

/-- Go: `DetailsLoaded`. -/
def DetailsLoaded (m : Photo) : Bool := m.Details.PhotoID == m.ID

/-- Go: `SetTitle`. -/
def SetTitle (E : Env) (m : Photo) (title source : String) : Photo :=
  let newTitle := E.Clip title E.ClipDefault
  if newTitle == "" then m
  else if m.TitleSrc != E.SrcAuto && m.TitleSrc != source && source != E.SrcManual
      && m.HasTitle then m
  else { m with PhotoTitle := newTitle, TitleSrc := source }

/-- Go: `SetDescription`. -/
def SetDescription (E : Env) (m : Photo) (desc source : String) : Photo :=
  let newDesc := E.Clip desc E.ClipDescription
  if newDesc == "" then m
  else if m.DescriptionSrc != E.SrcAuto && m.DescriptionSrc != source
      && source != E.SrcManual && m.PhotoDescription != "" then m
  else { m with PhotoDescription := newDesc, DescriptionSrc := source }

/-- Go: `UpdateYearMonth`. -/
def UpdateYearMonth (E : Env) (m : Photo) : Photo :=
  if m.TakenAt.IsZero || decide (m.TakenAt.Year < 1000) then m
  else
    let m1 :=
      if m.TakenAtLocal.IsZero || decide (m.TakenAtLocal.Year < 1000) then
        { m with TakenAtLocal := m.TakenAt }
      else m
    if m1.TakenSrc == E.SrcAuto then
      { m1 with PhotoYear := E.YearUnknown, PhotoMonth := E.MonthUnknown }
    else
      { m1 with PhotoYear := m1.TakenAtLocal.Year, PhotoMonth := m1.TakenAtLocal.Month }

/-- Go: `SetTakenAt`. -/
def SetTakenAt (E : Env) (m : Photo) (taken loc : Time) (zone source : String) : Photo :=
  if taken.IsZero || decide (taken.Year < 1000) then m
  else if m.TakenSrc != E.SrcAuto && m.TakenSrc != source && source != E.SrcManual then m
  else
    let m1 := { m with TakenAt := taken.RoundSecond.UTC, TakenSrc := source }
    let m2 :=
      if loc.IsZero || decide (loc.Year < 1000) then { m1 with TakenAtLocal := m1.TakenAt }
      else { m1 with TakenAtLocal := loc.RoundSecond }
    let m3 := if zone != "" then { m2 with TimeZone := zone } else m2
    m3.UpdateYearMonth E

/-- Go: `SetCoordinates`. -/
def SetCoordinates (E : Env) (m : Photo) (lat lng : Float32) (altitude : Int)
    (source : String) : Photo :=
  if lat.eqZero && lng.eqZero then m
  else if m.LocSrc != E.SrcAuto && m.LocSrc != source && source != E.SrcManual then m
  else { m with PhotoLat := lat, PhotoLng := lng, PhotoAltitude := altitude, LocSrc := source }

/-- Go: the location branches of `UpdateTitle` (lines 381-404), run on a
loaded location. -/
def titleFromLocation (E : Env) (m : Photo) (loc : Photoprism.Location)
    (labels : List ClassifyLabel) : Photo :=
  let title := (E.LabelsTitle labels (E.LocName loc)).1
  if title != "" then
    if E.LocNoCity loc || E.LocLongCity loc || E.LocCityContains loc title then
      m.SetTitle E (sprintf3 (E.Title title) (E.LocCountryName loc) m.TakenAt.FormatYear)
        E.SrcAuto
    else
      m.SetTitle E (sprintf3 (E.Title title) (E.LocCity loc) m.TakenAt.FormatYear) E.SrcAuto
  else if E.LocName loc != "" && E.LocCity loc != "" then
    if len (E.LocName loc) > 45 then
      m.SetTitle E (E.Title (E.LocName loc)) E.SrcAuto
    else if decide (len (E.LocName loc) > 20) || decide (len (E.LocCity loc) > 16)
        || stringsContains (E.LocName loc) (E.LocCity loc) then
      m.SetTitle E (sprintf2 (E.LocName loc) m.TakenAt.FormatYear) E.SrcAuto
    else
      m.SetTitle E (sprintf3 (E.LocName loc) (E.LocCity loc) m.TakenAt.FormatYear) E.SrcAuto
  else if E.LocCity loc != "" && E.LocCountryName loc != "" then
    if len (E.LocCity loc) > 20 then
      m.SetTitle E (sprintf2 (E.LocCity loc) m.TakenAt.FormatYear) E.SrcAuto
    else
      m.SetTitle E (sprintf3 (E.LocCity loc) (E.LocCountryName loc) m.TakenAt.FormatYear)
        E.SrcAuto
  else m

/-- Go: the fallback of `UpdateTitle` (lines 408-418), from the first label
and the capture year. -/
def titleFromLabels (E : Env) (m : Photo) (labels : List ClassifyLabel) : Photo :=
  match labels with
  | l :: _ =>
    if decide (l.Priority ≥ -1) && decide (l.Uncertainty ≤ 85) && l.Name != "" then
      if m.TakenSrc != E.SrcAuto then
        m.SetTitle E (sprintf2 (E.Title l.Name) m.TakenAt.FormatYear) E.SrcAuto
      else
        m.SetTitle E (E.Title l.Name) E.SrcAuto
    else if !m.TakenAtLocal.IsZero && m.TakenSrc != E.SrcAuto then
      m.SetTitle E (sprintf2 E.TitleUnknown m.TakenAtLocal.FormatYear) E.SrcAuto
    else
      m.SetTitle E E.TitleUnknown E.SrcAuto
  | [] =>
    if !m.TakenAtLocal.IsZero && m.TakenSrc != E.SrcAuto then
      m.SetTitle E (sprintf2 E.TitleUnknown m.TakenAtLocal.FormatYear) E.SrcAuto
    else
      m.SetTitle E E.TitleUnknown E.SrcAuto

/-- Go: lines 378-405 of `UpdateTitle`: the location branches when the
location is loaded. The result carries the label list as `labels.Title` left
it, which is the list line 408 reads. -/
def locationStep (E : Env) (m : Photo) (labels : List ClassifyLabel) :
    Photo × List ClassifyLabel :=
  match m.Location with
  | some loc =>
    if m.LocationLoaded E then
      (m.titleFromLocation E loc labels, (E.LabelsTitle labels (E.LocName loc)).2)
    else (m, labels)
  | none => (m, labels)

/-- Go: `UpdateTitle`; the record after the call and the error returned, if
any. Log lines have no effect on the record. -/
def UpdateTitle (E : Env) (m : Photo) (labels : List ClassifyLabel) :
    Photo × Option String :=
  if m.TitleSrc != E.SrcAuto && m.HasTitle then
    (m, some "photo: won't update title, was modified")
  else
    let knownLocation := m.LocationLoaded E
    let step1 := m.locationStep E labels
    if !knownLocation || step1.1.NoTitle then
      (step1.1.titleFromLabels E step1.2, none)
    else (step1.1, none)

end Photo

/-! ## The persisted associations -/

/-- Go: `entity.Keyword`, a persisted keyword entity. -/
structure Keyword where
  ID : Nat
  Keyword : String
  Skip : Bool
deriving DecidableEq, Repr

/-- Go: `entity.PhotoKeyword`, a row of the (record, keyword) association. -/
structure PhotoKeyword where
  PhotoID : Nat
  KeywordID : Nat
deriving DecidableEq, Repr

/-- Notifications sent through `internal/event`. -/
inductive Event where
  | EntitiesCreated (table : String) (id : Nat)
  | Publish (topic : String) (count : Int)
deriving DecidableEq, Repr

/-- The tables behind `Db()` that photo.go reads and writes, and the
notifications sent so far. Storage is taken to succeed: a failing store is a
collaborator failure, outside what is modelled. -/
structure Db where
  Labels : List Label
  Keywords : List Keyword
  PhotosLabels : List PhotoLabel
  PhotosKeywords : List PhotoKeyword
  Events : List Event
deriving DecidableEq, Repr

namespace Db

/-- The row of the (record, label) association with the given key. -/
def findPhotoLabel (db : Db) (photoID labelID : Nat) : Option PhotoLabel :=
  db.PhotosLabels.find? (fun r => r.PhotoID == photoID && r.LabelID == labelID)

/-- Go: `Db().Save(&plm)`, which writes the row with the key of `plm`. -/
def SavePhotoLabel (db : Db) (plm : PhotoLabel) : Db :=
  { db with PhotosLabels := db.PhotosLabels.map (fun r =>
      if r.PhotoID == plm.PhotoID && r.LabelID == plm.LabelID then plm else r) }

/-- The keyword ids associated with a record. -/
def keywordIdsOf (db : Db) (photoID : Nat) : List Nat :=
  (db.PhotosKeywords.filter (fun r => r.PhotoID == photoID)).map (fun r => r.KeywordID)

/-- SQL `x NOT IN (?)` with a slice argument, as gorm renders it: the elements
of a non-empty slice are listed, an empty slice is rendered as `NULL`, and
`x NOT IN (NULL)` is unknown in SQL, so that no row satisfies it. -/
def sqlNotIn (x : Nat) (ids : List Nat) : Bool :=
  if ids.isEmpty then false else !ids.contains x

/-- Go: `db.Where("photo_id = ? AND keyword_id NOT IN (?)", id, ids).Delete(&PhotoKeyword{})`. -/
def DeletePhotoKeywordsNotIn (db : Db) (photoID : Nat) (ids : List Nat) : Db :=
  { db with PhotosKeywords := db.PhotosKeywords.filter (fun r =>
      !(r.PhotoID == photoID && sqlNotIn r.KeywordID ids)) }

end Db

/-- An identifier not yet used in a table. -/
def freshID (ids : List Nat) : Nat := ids.foldl max 0 + 1

/-- Modelled from the spec: `NewLabel(name, priority).FirstOrCreate()` of
label.go, "find-or-create a persisted label entity keyed by (normalized name,
priority)"; `New` tells whether the entity was created by this call. -/
def Label.FirstOrCreate (E : Env) (db : Db) (name : String) (priority : Int) : Db × Label :=
  match db.Labels.find? (fun l => l.LabelSlug == E.Slug name && l.LabelPriority == priority) with
  | some l => (db, { l with New := false })
  | none =>
    let l : Label :=
      { ID := freshID (db.Labels.map (fun l => l.ID)), LabelSlug := E.Slug name,
        LabelName := name, LabelPriority := priority, New := true }
    ({ db with Labels := db.Labels ++ [{ l with New := false }] }, l)

/-- Go: `NewPhotoLabel(photoID, labelID, uncertainty, source)`. -/
def NewPhotoLabel (photoID labelID : Nat) (uncertainty : Int) (source : String) : PhotoLabel :=
  { PhotoID := photoID, LabelID := labelID, LabelSrc := source, Uncertainty := uncertainty }

/-- Modelled from the spec: `PhotoLabel.FirstOrCreate()` of photo_label.go,
"find-or-create the (record, label) association with the incoming uncertainty
and source": the stored row when there is one, else the new row, now stored. -/
def PhotoLabel.FirstOrCreate (db : Db) (plm : PhotoLabel) : Db × PhotoLabel :=
  match db.findPhotoLabel plm.PhotoID plm.LabelID with
  | some r => (db, r)
  | none => ({ db with PhotosLabels := db.PhotosLabels ++ [plm] }, plm)

/-- Modelled from the spec: `NewKeyword(w).FirstOrCreate()` of keyword.go,
"find-or-create a persisted keyword entity (idempotent)", the creation step
flagging stop-words and noise to be skipped. -/
def Keyword.FirstOrCreate (E : Env) (db : Db) (w : String) : Db × Photoprism.Keyword :=
  match db.Keywords.find? (fun k => k.Keyword == w) with
  | some k => (db, k)
  | none =>
    let k : Photoprism.Keyword :=
      { ID := freshID (db.Keywords.map (fun k => k.ID)), Keyword := w, Skip := E.KeywordSkip w }
    ({ db with Keywords := db.Keywords ++ [k] }, k)

/-- Modelled from the spec: `NewPhotoKeyword(photoID, keywordID).FirstOrCreate()`
of photo_keyword.go, "create-or-find the (record, keyword) association". -/
def PhotoKeyword.FirstOrCreate (db : Db) (pk : PhotoKeyword) : Db :=
  if db.PhotosKeywords.contains pk then db
  else { db with PhotosKeywords := db.PhotosKeywords ++ [pk] }

namespace Photo

/-- Go: lines 432-446 of `AddLabels`: the label entity of an incoming label is
found or created, its creation is notified, and the entity is updated from
the label. -/
def resolveLabel (E : Env) (db : Db) (label : ClassifyLabel) : Db × Label :=
  let r := Label.FirstOrCreate E db (E.LabelTitle label) label.Priority
  let lm := r.2
  let db1 :=
    if lm.New then
      { r.1 with Events := r.1.Events ++ [Event.EntitiesCreated "labels" lm.ID] ++
          (if label.Priority ≥ 0 then [Event.Publish "count.labels" 1] else []) }
    else r.1
  ({ db1 with Labels := E.UpdateLabel db1.Labels lm label }, lm)

/-- Go: lines 448-456 of `AddLabels`: the association of the record with the
label entity is found or created, and overwritten when the incoming label is
more confident. -/
def mergePhotoLabel (m : Photo) (db : Db) (labelID : Nat) (label : ClassifyLabel) : Db :=
  let r := PhotoLabel.FirstOrCreate db (NewPhotoLabel m.ID labelID label.Uncertainty label.Source)
  let plm := r.2
  if decide (plm.Uncertainty > label.Uncertainty) && decide (plm.Uncertainty < 100) then
    r.1.SavePhotoLabel { plm with Uncertainty := label.Uncertainty, LabelSrc := label.Source }
  else r.1

/-- Go: the body of the loop of `AddLabels`, for one incoming label. -/
def addLabel (E : Env) (m : Photo) (db : Db) (label : ClassifyLabel) : Db :=
  let r := resolveLabel E db label
  m.mergePhotoLabel r.1 r.2.ID label

/-- Go: `AddLabels`; the record with its label list reloaded, and the store. -/
def AddLabels (E : Env) (m : Photo) (db : Db) (labels : List ClassifyLabel) : Photo × Db :=
  let db1 := labels.foldl (m.addLabel E) db
  ({ m with Labels := db1.PhotosLabels.filter (fun r => r.PhotoID == m.ID) }, db1)

/-- Go: the body of the loop of `IndexKeywords`, for one keyword: the store and
the ids collected so far. -/
def indexKeyword (E : Env) (m : Photo) (acc : Db × List Nat) (w : String) : Db × List Nat :=
  let r := Keyword.FirstOrCreate E acc.1 w
  if r.2.Skip then (r.1, acc.2)
  else (PhotoKeyword.FirstOrCreate r.1 ⟨m.ID, r.2.ID⟩, acc.2 ++ [r.2.ID])

/-- Go: the keywords `IndexKeywords` collects from the record. -/
def keywordsOf (E : Env) (m : Photo) : List String :=
  E.UniqueWords (E.Keywords m.PhotoTitle ++ E.Keywords m.PhotoDescription ++
    E.Keywords m.Details.Keywords ++ E.Keywords m.Details.Subject ++
    E.Keywords m.Details.Artist)

/-- Go: `IndexKeywords`; the store after the call and the error returned, if
any. -/
def IndexKeywords (E : Env) (m : Photo) (db : Db) : Db × Option String :=
  if !m.DetailsLoaded then
    (db, some ("photo: can't index keywords, details not loaded (" ++ m.PhotoUID ++ ")"))
  else
    let r := (m.keywordsOf E).foldl (m.indexKeyword E) (db, [])
    (r.1.DeletePhotoKeywordsNotIn m.ID r.2, none)

end Photo

/-! ## A reference environment -/

/-- Go: `strings.TrimSpace`, on the blank, tab, line feed and carriage return. -/
def trimSpace (s : String) : String :=
  let ws : Char → Bool := fun c => c == ' ' || c == '\t' || c == '\n' || c == '\r'
  String.mk ((s.toList.dropWhile ws).reverse.dropWhile ws).reverse

/-- Modelled from the spec: `txt.Clip` of pkg/txt, "non-empty after trimming;
clipped to a fixed maximum length". -/
def refClip (s : String) (size : Int) : String :=
  trimSpace (String.mk ((trimSpace s).toList.take size.toNat))

/-- Modelled from the spec: `labels.Title` of internal/classify, the name of
the top label when it is "usable as a sub-place qualifier (non-empty,
priority ≥ −1, uncertainty ≤ 85)", else no title; the list is left as it is. -/
def refLabelsTitle (labels : List ClassifyLabel) (_fallback : String) :
    String × List ClassifyLabel :=
  match labels with
  | l :: _ =>
    if decide (l.Priority ≥ -1) && decide (l.Uncertainty ≤ 85) then (l.Name, labels)
    else ("", labels)
  | [] => ("", labels)

/-- Modelled from the spec: the accessor `Location.City()` of location.go, the
city of the place of the location. -/
def refLocCity (loc : Location) : String :=
  match loc.Place with
  | some p => p.City
  | none => ""

/-- Modelled from the spec: `txt.Keywords` of pkg/txt, which tokenizes a text
"into lowercase word-like tokens": the maximal runs of letters and digits,
in lower case; `cur` is the run read so far, reversed. -/
def refKeywordsAux : List Char → List Char → List String
  | [], cur => if cur.isEmpty then [] else [String.mk cur.reverse]
  | c :: cs, cur =>
    if c.isAlphanum then refKeywordsAux cs (c.toLower :: cur)
    else if cur.isEmpty then refKeywordsAux cs []
    else String.mk cur.reverse :: refKeywordsAux cs []

/-- Modelled from the spec: `txt.UniqueWords` of pkg/txt, which removes
duplicates from a list of words ("set semantics only"). -/
def refUniqueWords : List String → List String
  | [] => []
  | w :: ws => if ws.contains w then refUniqueWords ws else w :: refUniqueWords ws

/-- Modelled from the spec: the table `maps.CountryNames` of internal/maps,
from country codes to country names, at two of its codes; a code that is not
in the table has the empty name. -/
def refCountryNames (code : String) : String :=
  if code == "de" then "Germany" else if code == "ru" then "Russia" else ""

/-- Modelled from the spec: the dependencies of photo.go in other files and
packages, with the provenance tags and sentinels of the entity package, the
clipping rule of section 4.1 (300 for a title), an identity title case, a
tokenizer on letters and digits, and the `Location` accessors of section 4.2
(city unknown, city longer than the threshold, city a substring of the
label). Used to evaluate the operations on concrete records. -/
def refEnv : Env :=
  { SrcAuto := ""
    SrcManual := "manual"
    TitleUnknown := "Unknown"
    YearUnknown := -1
    MonthUnknown := -1
    UnknownLocationUID := "zz"
    ClipDefault := 300
    ClipDescription := 16000
    Clip := refClip
    Title := fun s => s
    Keywords := fun s => refKeywordsAux s.toList []
    UniqueWords := refUniqueWords
    LabelsTitle := refLabelsTitle
    LabelTitle := fun l => l.Name
    LocName := fun loc => loc.LocName
    LocCity := refLocCity
    LocNoCity := fun loc => refLocCity loc == ""
    LocLongCity := fun loc => decide (len (refLocCity loc) > 16)
    LocCityContains := fun loc text => stringsContains text (refLocCity loc)
    LocCountryName := fun loc =>
      match loc.Place with
      | some p => refCountryNames p.LocCountry
      | none => ""
    CountryNames := refCountryNames
    Slug := fun s => s
    UpdateLabel := fun ls _ _ => ls
    KeywordSkip := fun _ => false }

/-- A record with every field at its Go zero value. -/
def emptyPhoto : Photo :=
  { ID := 0, TakenAt := Time.zero, TakenAtLocal := Time.zero, TakenSrc := "", PhotoUID := "",
    PhotoTitle := "", TitleSrc := "", PhotoDescription := "", DescriptionSrc := "",
    Details := ⟨0, "", "", ""⟩, TimeZone := "", PlaceUID := "", LocUID := "", LocSrc := "",
    PhotoLat := ⟨0⟩, PhotoLng := ⟨0⟩, PhotoAltitude := 0, PhotoYear := 0, PhotoMonth := 0,
    PhotoQuality := 0, Location := none, Labels := [] }

/-- An empty store. -/
def emptyDb : Db := ⟨[], [], [], [], []⟩

/-! ## Specification vocabulary -/

/-- The precedence rule of the field reconciler: a candidate from `source`
may replace a value held with source `current`. -/
def Env.Precedes (E : Env) (current source : String) : Prop :=
  current = E.SrcAuto ∨ current = source ∨ source = E.SrcManual

instance (E : Env) (current source : String) : Decidable (E.Precedes current source) := by
  unfold Env.Precedes; exact inferInstance

/-- The year/month invariant of the data model: year and month are the
`Unknown` sentinels exactly when the capture-time source is `Auto`, and are
otherwise the calendar year and month of the local capture time. -/
def YearMonthInvariant (E : Env) (m : Photo) : Prop :=
  ((m.PhotoYear = E.YearUnknown ∧ m.PhotoMonth = E.MonthUnknown) ↔ m.TakenSrc = E.SrcAuto) ∧
  (m.TakenSrc ≠ E.SrcAuto →
    m.PhotoYear = m.TakenAtLocal.Year ∧ m.PhotoMonth = m.TakenAtLocal.Month)

instance (E : Env) (m : Photo) : Decidable (YearMonthInvariant E m) := by
  unfold YearMonthInvariant; exact inferInstance

/-- The capture-time candidate passes the validity filter of `SetTakenAt`:
it is not the zero time and its calendar year is at least 1000. -/
def validTaken (taken : Time) : Prop := taken.IsZero = false ∧ 1000 ≤ taken.Year

instance (taken : Time) : Decidable (validTaken taken) := by
  unfold validTaken; exact inferInstance

/-- A record that holds the title `t` with a non-automatic source `meta`. -/
def metaTitled (t : String) : Photo :=
  { emptyPhoto with PhotoTitle := t, TitleSrc := "meta" }

/-- A place with the given city and country code. -/
def placeOf (city country : String) : Place :=
  { PlaceUID := "p1", LocLabel := city, LocCity := city, LocState := "", LocCountry := country,
    LocKeywords := "", LocNotes := "", LocFavorite := false, PhotoCount := 1, New := false }

/-- A loaded location with the given place name, city and country code. -/
def locationOf (name city country : String) : Location :=
  { LocUID := "s2:1", PlaceUID := "p1", Place := some (placeOf city country), LocName := name,
    LocCategory := "", LocSource := "" }

/-- A loaded location of which nothing is known: no place name, no city and
no country. -/
def bareLocation : Location := locationOf "" "" ""

/-- A record taken on 2020-01-02 00:00:00 UTC, at the given location. -/
def photoAt (loc : Location) : Photo :=
  { emptyPhoto with TakenAt := ⟨63713520000, 0, 0⟩, TakenAtLocal := ⟨63713520000, 0, 0⟩,
                    Location := some loc }

/-- A record that carries the automatically generated title `Old` and a
loaded location of which nothing is known. -/
def staleTitled : Photo := { emptyPhoto with PhotoTitle := "Old", Location := some bareLocation }

/-- A place name of 46 bytes. -/
def longName : String := "1111111111222222222233333333334444444444555555"

/-- The title `UpdateTitle` composes from a place name and a city when no
label gives a title (lines 390-397). -/
def nameCityTitle (E : Env) (m : Photo) (loc : Location) : String :=
  if len (E.LocName loc) > 45 then E.Title (E.LocName loc)
  else if len (E.LocName loc) > 20 ∨ len (E.LocCity loc) > 16 ∨
      stringsContains (E.LocName loc) (E.LocCity loc) = true then
    sprintf2 (E.LocName loc) m.TakenAt.FormatYear
  else sprintf3 (E.LocName loc) (E.LocCity loc) m.TakenAt.FormatYear

/-- The title of the fallback of `UpdateTitle` (lines 408-418): the title of
the first label when it is usable, with the capture year when the capture
time is not automatic, else the sentinel, with the local capture year when
that is known and not automatic. -/
def fallbackTitle (E : Env) (m : Photo) (labels : List ClassifyLabel) : String :=
  match labels with
  | l :: _ =>
    if l.Priority ≥ -1 ∧ l.Uncertainty ≤ 85 ∧ l.Name ≠ "" then
      if m.TakenSrc ≠ E.SrcAuto then sprintf2 (E.Title l.Name) m.TakenAt.FormatYear
      else E.Title l.Name
    else if m.TakenAtLocal.IsZero = false ∧ m.TakenSrc ≠ E.SrcAuto then
      sprintf2 E.TitleUnknown m.TakenAtLocal.FormatYear
    else E.TitleUnknown
  | [] =>
    if m.TakenAtLocal.IsZero = false ∧ m.TakenSrc ≠ E.SrcAuto then
      sprintf2 E.TitleUnknown m.TakenAtLocal.FormatYear
    else E.TitleUnknown

/-- The record with identifier 1, its details loaded. -/
def recordOne : Photo := { emptyPhoto with ID := 1, PhotoUID := "p1", Details := ⟨1, "", "", ""⟩ }

/-- A store in which record 1 is associated with the label `cat` (entity 1)
at uncertainty `u`, from source `image`. -/
def catStore (u : Int) : Db :=
  { emptyDb with Labels := [⟨1, "cat", "cat", 0, false⟩], PhotosLabels := [⟨1, 1, "image", u⟩] }

/-- An incoming label `cat` of uncertainty `v` from source `location`. -/
def catLabel (v : Int) : ClassifyLabel :=
  { Name := "cat", Source := "location", Uncertainty := v, Priority := 0, Categories := [] }

/-- A store in which record 1 is associated with the keyword `beach`
(entity 7), and in which the keyword `the` (entity 3) is flagged to be
skipped. -/
def staleStore : Db :=
  { emptyDb with Keywords := [⟨3, "the", true⟩, ⟨7, "beach", false⟩], PhotosKeywords := [⟨1, 7⟩] }

/-- The title `UpdateTitle` composes from a city and a country name when no
label gives a title and the place has no name (lines 398-404). -/
def cityCountryTitle (E : Env) (m : Photo) (loc : Location) : String :=
  if len (E.LocCity loc) > 20 then sprintf2 (E.LocCity loc) m.TakenAt.FormatYear
  else sprintf3 (E.LocCity loc) (E.LocCountryName loc) m.TakenAt.FormatYear

/-! ## Path title deriver -/

/-- Go: `time.Month(m).String()`, the long name of a month. -/
def longMonthName (m : Nat) : String :=
  match m with
  | 1 => "January"
  | 2 => "February"
  | 3 => "March"
  | 4 => "April"
  | 5 => "May"
  | 6 => "June"
  | 7 => "July"
  | 8 => "August"
  | 9 => "September"
  | 10 => "October"
  | 11 => "November"
  | 12 => "December"
  | _ => "%!Month(" ++ toString m ++ ")"

/-- Go: `strings.Trim(s, "/")` on the characters of `s`. -/
def trimSeparators (cs : List Char) : List Char :=
  ((cs.dropWhile (fun c => c == '/')).reverse.dropWhile (fun c => c == '/')).reverse

/-- Go: `strings.Split(s, "/")` on the characters of `s`. -/
def splitSegments : List Char → List (List Char)
  | [] => [[]]
  | c :: cs =>
    if c == '/' then [] :: splitSegments cs
    else
      match splitSegments cs with
      | [] => [[c]]
      | seg :: segs => (c :: seg) :: segs

/-- The value of a decimal digit. -/
def digitValue (c : Char) : Nat := c.toNat - 48

/-- The number a segment of exactly two decimal digits denotes. -/
def twoDigits (seg : List Char) : Option Nat :=
  match seg with
  | [a, b] => if a.isDigit && b.isDigit then some (digitValue a * 10 + digitValue b) else none
  | _ => none

/-- A segment `YYYY`: exactly four decimal digits. -/
def isYearSegment (seg : List Char) : Bool := seg.length == 4 && seg.all Char.isDigit

/-- A segment `MM`: two decimal digits that denote a month, 1 to 12. -/
def monthOfSegment (seg : List Char) : Option Nat :=
  match twoDigits seg with
  | some m => if 1 ≤ m ∧ m ≤ 12 then some m else none
  | none => none

/-- A segment `DD`: two decimal digits that denote a day, 1 to 31. -/
def dayOfSegment (seg : List Char) : Option Nat :=
  match twoDigits seg with
  | some d => if 1 ≤ d ∧ d ≤ 31 then some d else none
  | none => none

/-- Modelled from the spec: the root categories of folder.go, an "imported"
root and a general root, and the root marker; only their being distinct
matters. -/
def RootOriginals : String := "originals"

/-- Modelled from the spec: the "imported" root category of folder.go. -/
def RootImport : String := "import"

/-- Modelled from the spec: the root marker of folder.go, a path that stands
for the root itself. -/
def RootPath : String := "/"

/-- Modelled from the spec: the sort order `SortOrderName` that a new folder
gets in folder_test.go. -/
def SortOrderName : String := "name"

/-- Modelled from the spec: the type `Folder` of folder.go, with the fields
that folder_test.go reads. -/
structure Folder where
  Root : String
  Path : String
  FolderTitle : String
  FolderDescription : String
  FolderType : String
  FolderOrder : String
  FolderFavorite : Bool
  FolderIgnore : Bool
  FolderWatch : Bool
deriving DecidableEq, Repr

/-- Modelled from the spec: the default label of a root category, section 4.5,
"category's default label (e.g. "Originals")"; the spec names the label of the
general root only, another root is labelled by its own name. -/
def rootLabel (root : String) : String :=
  if root == RootOriginals then "Originals" else root

/-- Modelled from the spec: the title of a date path, section 4.5: `YYYY/MM`
gives "long month name + year"; `YYYY/MM/DD` gives "long month name, day,
comma, year" under the imported root and the title of `YYYY/MM` under other
roots; any other last segment, such as `DD <free text>`, is the title as it
stands ("the day number is not stripped"). -/
def titleOfSegments (root : String) (segs : List (List Char)) : String :=
  match segs with
  | [y, m] =>
    match isYearSegment y, monthOfSegment m with
    | true, some month => longMonthName month ++ " " ++ String.mk y
    | _, _ => String.mk m
  | [y, m, d] =>
    match isYearSegment y, monthOfSegment m, dayOfSegment d with
    | true, some month, some day =>
      if root == RootImport then
        longMonthName month ++ " " ++ toString day ++ ", " ++ String.mk y
      else longMonthName month ++ " " ++ String.mk y
    | _, _, _ => String.mk d
  | _ => String.mk (segs.getLast?.getD [])

/-- Modelled from the spec: the path title deriver of folder.go, section 4.5,
on a path whose leading and trailing separators are stripped: "empty path or
path equal to the root marker" gives the default label of the root category,
any other path the title of its segments. -/
def titleOfPath (root : String) (path : String) : String :=
  if path == "" || path == RootPath then rootLabel root
  else titleOfSegments root (splitSegments path.toList)

/-- Modelled from the spec: `NewFolder(root, pathName, modTime)` of folder.go,
of which the sources hold the test only. "Path normalization strips
leading/trailing separators before segment parsing"; the title is derived
from the normalized path; the other fields are as folder_test.go finds them.
The modification time and the random identifier have no part in the title. -/
def NewFolder (root pathName : String) : Folder :=
  let path := String.mk (trimSeparators pathName.toList)
  let path := if path == RootPath then "" else path
  { Root := root, Path := path, FolderTitle := titleOfPath root path, FolderDescription := "",
    FolderType := "", FolderOrder := SortOrderName, FolderFavorite := false,
    FolderIgnore := false, FolderWatch := false }

/-- A decimal digit as a character. -/
def digitChar (d : Nat) : Char := Char.ofNat (48 + d % 10)

/-- A number below 100 written with two digits, as `MM` and `DD` are. -/
def dec2 (n : Nat) : List Char := [digitChar (n / 10), digitChar n]

/-- A number below 10000 written with four digits, as `YYYY` is. -/
def dec4 (n : Nat) : List Char :=
  [digitChar (n / 1000), digitChar (n / 100), digitChar (n / 10), digitChar n]

/-- A run of `n` path separators. -/
def separators (n : Nat) : List Char := List.replicate n '/'

/-! ## Calendar lemmas -/

/-- January 1 of the year 1000 is day 364877 after January 1 of the year 1. -/
theorem Time.yearOfDays_ge_1000 (d : Int) : 1000 ≤ (Time.yearOfDays d).1 ↔ 364877 ≤ d := by
  unfold Time.yearOfDays
  simp only
  generalize ha : d / 146097 = a
  generalize hb : (d - 146097 * a) / 36524 = b
  generalize he : (d - 146097 * a - 36524 * (b - b / 4)) / 1461 = e
  generalize hf : (d - 146097 * a - 36524 * (b - b / 4) - 1461 * e) / 365 = f
  have h1 : a ≤ 1 ∨ a = 2 ∨ 3 ≤ a := by omega
  have hb1 : b = 0 ∨ b = 1 ∨ b = 2 ∨ b = 3 ∨ b = 4 := by omega
  have hf1 : f = 0 ∨ f = 1 ∨ f = 2 ∨ f = 3 ∨ f = 4 := by omega
  rcases h1 with h1 | h1 | h1 <;> rcases hb1 with h | h | h | h | h <;>
    rcases hf1 with h2 | h2 | h2 | h2 | h2 <;> subst h <;> subst h2 <;> omega

theorem Time.year_ge_1000 (t : Time) : 1000 ≤ t.Year ↔ 31525372800 ≤ t.sec + t.zone := by
  unfold Time.Year Time.days
  rw [Time.yearOfDays_ge_1000]
  omega

/-! ## Field reconciler: titles and descriptions -/

theorem Photo.SetTitle_eq (E : Env) (m : Photo) (title source : String) :
    m.SetTitle E title source =
      if E.Clip title E.ClipDefault ≠ "" ∧
          (E.Precedes m.TitleSrc source ∨ m.PhotoTitle = "") then
        { m with PhotoTitle := E.Clip title E.ClipDefault, TitleSrc := source }
      else m := by
  unfold Photo.SetTitle Photo.HasTitle Env.Precedes
  by_cases h1 : E.Clip title E.ClipDefault = "" <;> by_cases h2 : m.TitleSrc = E.SrcAuto <;>
    by_cases h3 : m.TitleSrc = source <;> by_cases h4 : source = E.SrcManual <;>
    by_cases h5 : m.PhotoTitle = "" <;> simp [h1, h2, h3, h4, h5]

theorem Photo.SetDescription_eq (E : Env) (m : Photo) (desc source : String) :
    m.SetDescription E desc source =
      if E.Clip desc E.ClipDescription ≠ "" ∧
          (E.Precedes m.DescriptionSrc source ∨ m.PhotoDescription = "") then
        { m with PhotoDescription := E.Clip desc E.ClipDescription, DescriptionSrc := source }
      else m := by
  unfold Photo.SetDescription Env.Precedes
  by_cases h1 : E.Clip desc E.ClipDescription = "" <;>
    by_cases h2 : m.DescriptionSrc = E.SrcAuto <;>
    by_cases h3 : m.DescriptionSrc = source <;> by_cases h4 : source = E.SrcManual <;>
    by_cases h5 : m.PhotoDescription = "" <;> simp [h1, h2, h3, h4, h5]

/-- C1, as stated, fails: a record whose title is empty but whose title source
is `meta` accepts a title from `location`, although the current source is
neither `Auto` nor `location` and the candidate's source is not `Manual`. The
same holds of the description. -/
theorem C1_counterexample_empty_title_accepts_any_source :
    ¬ ((metaTitled "").SetTitle refEnv "x" "location" =
        if refEnv.Clip "x" refEnv.ClipDefault ≠ "" ∧
            refEnv.Precedes (metaTitled "").TitleSrc "location" then
          { metaTitled "" with
              PhotoTitle := refEnv.Clip "x" refEnv.ClipDefault, TitleSrc := "location" }
        else metaTitled "") ∧
    ¬ (({ emptyPhoto with DescriptionSrc := "meta" } : Photo).SetDescription refEnv "x"
          "location" =
        if refEnv.Clip "x" refEnv.ClipDescription ≠ "" ∧ refEnv.Precedes "meta" "location" then
          { emptyPhoto with
              PhotoDescription := refEnv.Clip "x" refEnv.ClipDescription,
              DescriptionSrc := "location" }
        else { emptyPhoto with DescriptionSrc := "meta" }) := by
  decide

/-- C1, amended: `SetTitle(title, source)` stores the clipped candidate and
`source` if and only if the clipped candidate is non-empty and (the current
source is `Auto`, or equals `source`, or `source` is `Manual`, or the stored
title is empty); in every other case the record is left as it is. Likewise
`SetDescription`, with the stored description in place of the title. -/
theorem C1_SetTitle_SetDescription_accept_iff (E : Env) (m : Photo) (text source : String) :
    (m.SetTitle E text source =
      if E.Clip text E.ClipDefault ≠ "" ∧
          (E.Precedes m.TitleSrc source ∨ m.PhotoTitle = "") then
        { m with PhotoTitle := E.Clip text E.ClipDefault, TitleSrc := source }
      else m) ∧
    (m.SetDescription E text source =
      if E.Clip text E.ClipDescription ≠ "" ∧
          (E.Precedes m.DescriptionSrc source ∨ m.PhotoDescription = "") then
        { m with PhotoDescription := E.Clip text E.ClipDescription, DescriptionSrc := source }
      else m) :=
  ⟨Photo.SetTitle_eq E m text source, Photo.SetDescription_eq E m text source⟩


/-! ## Field reconciler: capture time and coordinates -/

theorem validTaken_iff (t : Time) :
    validTaken t ↔ ¬ ((t.IsZero || decide (t.Year < 1000)) = true) := by
  unfold validTaken
  cases t.IsZero <;> simp

theorem Photo.UpdateYearMonth_eq (E : Env) (m : Photo) :
    m.UpdateYearMonth E =
      if validTaken m.TakenAt then
        { m with
          TakenAtLocal := if validTaken m.TakenAtLocal then m.TakenAtLocal else m.TakenAt
          PhotoYear :=
            if m.TakenSrc = E.SrcAuto then E.YearUnknown
            else (if validTaken m.TakenAtLocal then m.TakenAtLocal else m.TakenAt).Year
          PhotoMonth :=
            if m.TakenSrc = E.SrcAuto then E.MonthUnknown
            else (if validTaken m.TakenAtLocal then m.TakenAtLocal else m.TakenAt).Month }
      else m := by
  unfold Photo.UpdateYearMonth
  simp only [validTaken_iff]
  by_cases h1 : (m.TakenAt.IsZero || decide (m.TakenAt.Year < 1000)) = true <;>
    by_cases h2 : (m.TakenAtLocal.IsZero || decide (m.TakenAtLocal.Year < 1000)) = true <;>
    by_cases h3 : m.TakenSrc = E.SrcAuto <;> simp [h1, h2, h3]

theorem Photo.UpdateYearMonth_frame (E : Env) (m : Photo) :
    (m.UpdateYearMonth E).TakenAt = m.TakenAt ∧ (m.UpdateYearMonth E).TakenSrc = m.TakenSrc ∧
    (m.UpdateYearMonth E).TimeZone = m.TimeZone := by
  rw [Photo.UpdateYearMonth_eq]
  split_ifs <;> exact ⟨rfl, rfl, rfl⟩

theorem Photo.UpdateYearMonth_local (E : Env) (m : Photo)
    (h : m.TakenAtLocal = m.TakenAt ∨ validTaken m.TakenAtLocal) :
    (m.UpdateYearMonth E).TakenAtLocal = m.TakenAtLocal := by
  rw [Photo.UpdateYearMonth_eq]
  by_cases h1 : validTaken m.TakenAt
  · by_cases h2 : validTaken m.TakenAtLocal
    · simp only [h1, h2, if_true]
    · simp only [h1, h2, if_true, if_false]
      rcases h with h | h
      · exact h.symm
      · exact absurd h h2
  · simp only [h1, if_false]

theorem Photo.UpdateYearMonth_invariant (E : Env) (m : Photo) (hU : E.YearUnknown < 1000)
    (h : validTaken m.TakenAt) : YearMonthInvariant E (m.UpdateYearMonth E) := by
  rw [Photo.UpdateYearMonth_eq, if_pos h]
  unfold YearMonthInvariant
  by_cases h3 : m.TakenSrc = E.SrcAuto
  · simp [h3]
  · have hy : 1000 ≤ (if validTaken m.TakenAtLocal then m.TakenAtLocal else m.TakenAt).Year := by
      split_ifs with h4
      · exact h4.2
      · exact h.2
    simp only [h3, if_false]
    refine ⟨⟨fun hh => ?_, fun hh => hh.elim⟩, fun _ => ⟨trivial, trivial⟩⟩
    omega

theorem Time.RoundSecond_valid (t : Time) (hw : t.WellFormed) (hv : validTaken t) :
    validTaken t.RoundSecond := by
  unfold validTaken at *
  rw [Time.year_ge_1000] at *
  unfold Time.WellFormed at hw
  unfold Time.RoundSecond Time.IsZero
  split_ifs <;> simp <;> refine ⟨fun _ => ?_, ?_⟩ <;> omega

theorem Time.valid_of_utc_year (t : Time) (h : 1000 ≤ t.UTC.Year) : validTaken t.UTC := by
  refine ⟨?_, h⟩
  rw [Time.year_ge_1000] at h
  unfold Time.UTC Time.IsZero at *
  simp at *
  intro h0
  omega

theorem Photo.SetTakenAt_eq (E : Env) (m : Photo) (taken loc : Time) (zone source : String) :
    m.SetTakenAt E taken loc zone source =
      if validTaken taken ∧ E.Precedes m.TakenSrc source then
        ({ m with
            TakenAt := taken.RoundSecond.UTC
            TakenSrc := source
            TakenAtLocal := if validTaken loc then loc.RoundSecond else taken.RoundSecond.UTC
            TimeZone := if zone ≠ "" then zone else m.TimeZone } : Photo).UpdateYearMonth E
      else m := by
  unfold Photo.SetTakenAt Env.Precedes
  simp only [validTaken_iff]
  by_cases h1 : (taken.IsZero || decide (taken.Year < 1000)) = true <;>
    by_cases h2 : (loc.IsZero || decide (loc.Year < 1000)) = true <;>
    by_cases h3 : m.TakenSrc = E.SrcAuto <;> by_cases h4 : m.TakenSrc = source <;>
    by_cases h5 : source = E.SrcManual <;> by_cases h6 : zone = "" <;>
    simp [h1, h2, h3, h4, h5, h6]

theorem Photo.SetCoordinates_eq (E : Env) (m : Photo) (lat lng : Float32) (altitude : Int)
    (source : String) :
    m.SetCoordinates E lat lng altitude source =
      if ¬ (lat.eqZero = true ∧ lng.eqZero = true) ∧ E.Precedes m.LocSrc source then
        { m with PhotoLat := lat, PhotoLng := lng, PhotoAltitude := altitude, LocSrc := source }
      else m := by
  unfold Photo.SetCoordinates Env.Precedes
  by_cases h1 : lat.eqZero = true <;> by_cases h2 : lng.eqZero = true <;>
    by_cases h3 : m.LocSrc = E.SrcAuto <;> by_cases h4 : m.LocSrc = source <;>
    by_cases h5 : source = E.SrcManual <;> simp [h1, h2, h3, h4, h5]

/-- C2: for each of the four provenance-tracked setters, a candidate that
passes the field's validity filter is stored, together with its source,
whenever its source is `Manual` or the current source of the field is `Auto`. -/
theorem C2_manual_or_auto_candidate_is_stored (E : Env) (m : Photo) (source : String) :
    (∀ title, E.Clip title E.ClipDefault ≠ "" →
      source = E.SrcManual ∨ m.TitleSrc = E.SrcAuto →
      (m.SetTitle E title source).PhotoTitle = E.Clip title E.ClipDefault ∧
      (m.SetTitle E title source).TitleSrc = source) ∧
    (∀ desc, E.Clip desc E.ClipDescription ≠ "" →
      source = E.SrcManual ∨ m.DescriptionSrc = E.SrcAuto →
      (m.SetDescription E desc source).PhotoDescription = E.Clip desc E.ClipDescription ∧
      (m.SetDescription E desc source).DescriptionSrc = source) ∧
    (∀ taken loc zone, validTaken taken →
      source = E.SrcManual ∨ m.TakenSrc = E.SrcAuto →
      (m.SetTakenAt E taken loc zone source).TakenAt = taken.RoundSecond.UTC ∧
      (m.SetTakenAt E taken loc zone source).TakenSrc = source) ∧
    (∀ lat lng altitude, ¬ (lat.eqZero = true ∧ lng.eqZero = true) →
      source = E.SrcManual ∨ m.LocSrc = E.SrcAuto →
      (m.SetCoordinates E lat lng altitude source).PhotoLat = lat ∧
      (m.SetCoordinates E lat lng altitude source).PhotoLng = lng ∧
      (m.SetCoordinates E lat lng altitude source).PhotoAltitude = altitude ∧
      (m.SetCoordinates E lat lng altitude source).LocSrc = source) := by
  refine ⟨fun title hc hs => ?_, fun desc hc hs => ?_, fun taken loc zone hv hs => ?_,
    fun lat lng altitude hv hs => ?_⟩
  · have hp : E.Precedes m.TitleSrc source := by
      unfold Env.Precedes; tauto
    rw [Photo.SetTitle_eq, if_pos ⟨hc, Or.inl hp⟩]
    exact ⟨rfl, rfl⟩
  · have hp : E.Precedes m.DescriptionSrc source := by
      unfold Env.Precedes; tauto
    rw [Photo.SetDescription_eq, if_pos ⟨hc, Or.inl hp⟩]
    exact ⟨rfl, rfl⟩
  · have hp : E.Precedes m.TakenSrc source := by
      unfold Env.Precedes; tauto
    rw [Photo.SetTakenAt_eq, if_pos ⟨hv, hp⟩]
    obtain ⟨h1, h2, _⟩ := Photo.UpdateYearMonth_frame E
      ({ m with
          TakenAt := taken.RoundSecond.UTC
          TakenSrc := source
          TakenAtLocal := if validTaken loc then loc.RoundSecond else taken.RoundSecond.UTC
          TimeZone := if zone ≠ "" then zone else m.TimeZone } : Photo)
    exact ⟨h1, h2⟩
  · have hp : E.Precedes m.LocSrc source := by
      unfold Env.Precedes; tauto
    rw [Photo.SetCoordinates_eq, if_pos ⟨hv, hp⟩]
    exact ⟨rfl, rfl, rfl, rfl⟩

/-- C2, at a record that holds a title from `meta`: a manual title, a manual
description, a manual capture time and manual coordinates are all stored. -/
theorem C2_witness_manual_overrides_meta :
    (((metaTitled "old").SetTitle refEnv "x" "manual").PhotoTitle = refEnv.Clip "x" refEnv.ClipDefault ∧
      ((metaTitled "old").SetTitle refEnv "x" "manual").TitleSrc = "manual") ∧
    (((metaTitled "old").SetDescription refEnv "d" "manual").PhotoDescription =
        refEnv.Clip "d" refEnv.ClipDescription ∧
      ((metaTitled "old").SetDescription refEnv "d" "manual").DescriptionSrc = "manual") ∧
    (((metaTitled "old").SetTakenAt refEnv ⟨63713520000, 0, 3600⟩ Time.zero "" "manual").TakenAt =
        (Time.mk 63713520000 0 3600).RoundSecond.UTC ∧
      ((metaTitled "old").SetTakenAt refEnv ⟨63713520000, 0, 3600⟩ Time.zero "" "manual").TakenSrc =
        "manual") ∧
    (((metaTitled "old").SetCoordinates refEnv ⟨1⟩ ⟨0⟩ 5 "manual").PhotoLat = ⟨1⟩ ∧
      ((metaTitled "old").SetCoordinates refEnv ⟨1⟩ ⟨0⟩ 5 "manual").PhotoLng = ⟨0⟩ ∧
      ((metaTitled "old").SetCoordinates refEnv ⟨1⟩ ⟨0⟩ 5 "manual").PhotoAltitude = 5 ∧
      ((metaTitled "old").SetCoordinates refEnv ⟨1⟩ ⟨0⟩ 5 "manual").LocSrc = "manual") :=
  ⟨(C2_manual_or_auto_candidate_is_stored refEnv (metaTitled "old") "manual").1 "x"
      (by decide) (Or.inl rfl),
   (C2_manual_or_auto_candidate_is_stored refEnv (metaTitled "old") "manual").2.1 "d"
      (by decide) (Or.inl rfl),
   (C2_manual_or_auto_candidate_is_stored refEnv (metaTitled "old") "manual").2.2.1
      ⟨63713520000, 0, 3600⟩ Time.zero "" (by decide) (Or.inl rfl),
   (C2_manual_or_auto_candidate_is_stored refEnv (metaTitled "old") "manual").2.2.2
      ⟨1⟩ ⟨0⟩ 5 (by decide) (Or.inl rfl)⟩

/-- C4, as stated, fails: on a record whose capture time is the zero time (a
fresh record, source `Auto`) `UpdateYearMonth` returns at its guard and leaves
year and month as they were, here 0 and 0, not the `Unknown` sentinels; with
the source `meta` they stay 0 and 0 as well, not the year 1 and month 1 of the
zero time. -/
theorem C4_counterexample_zero_time_keeps_year_month :
    emptyPhoto.TakenSrc = refEnv.SrcAuto ∧
    (emptyPhoto.UpdateYearMonth refEnv).PhotoYear = 0 ∧
    ¬ YearMonthInvariant refEnv (emptyPhoto.UpdateYearMonth refEnv) ∧
    (({ emptyPhoto with TakenSrc := "meta" } : Photo).UpdateYearMonth refEnv).PhotoYear = 0 ∧
    (({ emptyPhoto with TakenSrc := "meta" } : Photo).UpdateYearMonth refEnv).TakenAtLocal.Year
      = 1 ∧
    ¬ YearMonthInvariant refEnv
      (({ emptyPhoto with TakenSrc := "meta" } : Photo).UpdateYearMonth refEnv) := by
  decide

/-- C4, amended: on a record whose capture time is not the zero time and has
a year of at least 1000, after `UpdateYearMonth` returns, and after every
`SetTakenAt` call that accepts its candidate and whose candidate, rounded and
presented in UTC, still has a year of at least 1000, year and month are the
`Unknown` sentinels if and only if the capture-time source is `Auto`, and are
otherwise the calendar year and month of the local capture time. The sentinel
year is taken to lie below the year 1000. -/
theorem C4_year_month_invariant_after_update (E : Env) (m : Photo)
    (hU : E.YearUnknown < 1000) :
    (validTaken m.TakenAt → YearMonthInvariant E (m.UpdateYearMonth E)) ∧
    (∀ taken loc zone source, validTaken taken → E.Precedes m.TakenSrc source →
      1000 ≤ taken.RoundSecond.UTC.Year →
      YearMonthInvariant E (m.SetTakenAt E taken loc zone source)) := by
  refine ⟨fun h => Photo.UpdateYearMonth_invariant E m hU h,
    fun taken loc zone source hv hp hy => ?_⟩
  rw [Photo.SetTakenAt_eq, if_pos ⟨hv, hp⟩]
  exact Photo.UpdateYearMonth_invariant E _ hU (Time.valid_of_utc_year _ hy)

/-- C4, amended, at a fresh record that receives the capture time
2020-01-02 01:00:00 +01:00 from `meta`: year and month become 2020 and 1. -/
theorem C4_witness_meta_time_sets_year_month :
    YearMonthInvariant refEnv
      (emptyPhoto.SetTakenAt refEnv ⟨63713520000, 0, 3600⟩ Time.zero "" "meta") :=
  (C4_year_month_invariant_after_update refEnv emptyPhoto (by decide)).2
    ⟨63713520000, 0, 3600⟩ Time.zero "" "meta" (by decide) (by decide) (by decide)

/-- The slip next to C4: `SetTakenAt` tests the year of the candidate in the
candidate's own zone, `UpdateYearMonth` the year of the stored UTC time. The
candidate 1000-01-01 00:30:00 +01:00 is accepted and stored as
0999-12-31 23:30:00 UTC, and year and month are not derived again. -/
theorem SetTakenAt_accepts_without_deriving_year :
    validTaken ⟨31525371000, 0, 3600⟩ ∧
    (emptyPhoto.SetTakenAt refEnv ⟨31525371000, 0, 3600⟩ Time.zero "" "meta").TakenSrc = "meta" ∧
    (emptyPhoto.SetTakenAt refEnv ⟨31525371000, 0, 3600⟩ Time.zero "" "meta").TakenAt.Year = 999 ∧
    (emptyPhoto.SetTakenAt refEnv ⟨31525371000, 0, 3600⟩ Time.zero "" "meta").PhotoYear = 0 := by
  decide

/-- C5: `SetTakenAt(taken, local, zone, source)` changes the record if and
only if `taken` is not the zero time, has a year of at least 1000, and the
precedence rule holds. Then `TakenAt` is `taken` rounded to the second in UTC,
`TakenSrc` is `source`, `TakenAtLocal` is `local` rounded to the second, or
the new `TakenAt` when `local` is the zero time or has a year below 1000, and
`TimeZone` is `zone` unless `zone` is empty. Otherwise the record, and so
each of its fields, is unchanged. -/
theorem C5_SetTakenAt_effect (E : Env) (m : Photo) (taken loc : Time) (zone source : String)
    (hw : loc.WellFormed) :
    (validTaken taken ∧ E.Precedes m.TakenSrc source →
      (m.SetTakenAt E taken loc zone source).TakenAt = taken.RoundSecond.UTC ∧
      (m.SetTakenAt E taken loc zone source).TakenSrc = source ∧
      (m.SetTakenAt E taken loc zone source).TakenAtLocal =
        (if validTaken loc then loc.RoundSecond else taken.RoundSecond.UTC) ∧
      (m.SetTakenAt E taken loc zone source).TimeZone =
        (if zone ≠ "" then zone else m.TimeZone)) ∧
    (¬ (validTaken taken ∧ E.Precedes m.TakenSrc source) →
      m.SetTakenAt E taken loc zone source = m) := by
  refine ⟨fun h => ?_, fun h => ?_⟩
  · rw [Photo.SetTakenAt_eq, if_pos h]
    obtain ⟨h1, h2, h3⟩ := Photo.UpdateYearMonth_frame E
      ({ m with
          TakenAt := taken.RoundSecond.UTC
          TakenSrc := source
          TakenAtLocal := if validTaken loc then loc.RoundSecond else taken.RoundSecond.UTC
          TimeZone := if zone ≠ "" then zone else m.TimeZone } : Photo)
    refine ⟨h1, h2, ?_, h3⟩
    apply Photo.UpdateYearMonth_local
    by_cases hl : validTaken loc
    · right
      simp only [hl, if_true]
      exact Time.RoundSecond_valid loc hw hl
    · left
      simp only [hl, if_false]
  · rw [Photo.SetTakenAt_eq, if_neg h]

/-- C5, at a record that holds a capture time from `meta`: a manual capture
time with a local time and a zone replaces all four fields. -/
theorem C5_witness_manual_time :
    (validTaken ⟨63713520000, 600000000, 0⟩ ∧ refEnv.Precedes "meta" "manual" →
      (({ emptyPhoto with TakenSrc := "meta" } : Photo).SetTakenAt refEnv
        ⟨63713520000, 600000000, 0⟩ ⟨63713523600, 0, 3600⟩ "Europe/Berlin" "manual").TakenAt =
        (Time.mk 63713520000 600000000 0).RoundSecond.UTC ∧
      (({ emptyPhoto with TakenSrc := "meta" } : Photo).SetTakenAt refEnv
        ⟨63713520000, 600000000, 0⟩ ⟨63713523600, 0, 3600⟩ "Europe/Berlin" "manual").TakenSrc =
        "manual" ∧
      (({ emptyPhoto with TakenSrc := "meta" } : Photo).SetTakenAt refEnv
        ⟨63713520000, 600000000, 0⟩ ⟨63713523600, 0, 3600⟩ "Europe/Berlin"
        "manual").TakenAtLocal =
        (if validTaken ⟨63713523600, 0, 3600⟩ then (Time.mk 63713523600 0 3600).RoundSecond
          else (Time.mk 63713520000 600000000 0).RoundSecond.UTC) ∧
      (({ emptyPhoto with TakenSrc := "meta" } : Photo).SetTakenAt refEnv
        ⟨63713520000, 600000000, 0⟩ ⟨63713523600, 0, 3600⟩ "Europe/Berlin" "manual").TimeZone =
        (if "Europe/Berlin" ≠ "" then "Europe/Berlin"
          else ({ emptyPhoto with TakenSrc := "meta" } : Photo).TimeZone)) ∧
    Time.WellFormed ⟨63713523600, 0, 3600⟩ :=
  ⟨(C5_SetTakenAt_effect refEnv { emptyPhoto with TakenSrc := "meta" }
      ⟨63713520000, 600000000, 0⟩ ⟨63713523600, 0, 3600⟩ "Europe/Berlin" "manual"
      (by decide)).1, by decide⟩

/-- C6: `SetCoordinates(lat, lng, altitude, source)` rejects the candidate
exactly when both `lat` and `lng` are zero or the precedence rule fails; on
acceptance latitude, longitude, altitude and source are set together, the
altitude whatever its value; on rejection the record is unchanged. -/
theorem C6_SetCoordinates_atomic (E : Env) (m : Photo) (lat lng : Float32) (altitude : Int)
    (source : String) :
    m.SetCoordinates E lat lng altitude source =
      if (lat.eqZero = true ∧ lng.eqZero = true) ∨
          (m.LocSrc ≠ E.SrcAuto ∧ m.LocSrc ≠ source ∧ source ≠ E.SrcManual) then m
      else
        { m with PhotoLat := lat, PhotoLng := lng, PhotoAltitude := altitude, LocSrc := source } := by
  rw [Photo.SetCoordinates_eq]
  unfold Env.Precedes
  by_cases h1 : lat.eqZero = true ∧ lng.eqZero = true <;>
    by_cases h3 : m.LocSrc = E.SrcAuto <;> by_cases h4 : m.LocSrc = source <;>
    by_cases h5 : source = E.SrcManual <;> simp [h1, h3, h4, h5]


/-! ## Title synthesizer -/

theorem Photo.SetTitle_eq_or (E : Env) (m : Photo) (title source : String) :
    m.SetTitle E title source = m ∨ (m.SetTitle E title source).TitleSrc = source := by
  rw [Photo.SetTitle_eq]
  split_ifs
  · exact Or.inr rfl
  · exact Or.inl rfl

theorem Photo.titleFromLocation_eq_or (E : Env) (m : Photo) (loc : Photoprism.Location)
    (labels : List ClassifyLabel) :
    m.titleFromLocation E loc labels = m ∨
      (m.titleFromLocation E loc labels).TitleSrc = E.SrcAuto := by
  unfold Photo.titleFromLocation
  simp only
  split_ifs <;> first | exact Photo.SetTitle_eq_or E m _ _ | exact Or.inl rfl

theorem Photo.titleFromLabels_eq_or (E : Env) (m : Photo) (labels : List ClassifyLabel) :
    m.titleFromLabels E labels = m ∨ (m.titleFromLabels E labels).TitleSrc = E.SrcAuto := by
  unfold Photo.titleFromLabels
  split <;> split_ifs <;> exact Photo.SetTitle_eq_or E m _ _

theorem Photo.locationStep_eq_or (E : Env) (m : Photo) (labels : List ClassifyLabel) :
    (m.locationStep E labels).1 = m ∨ (m.locationStep E labels).1.TitleSrc = E.SrcAuto := by
  unfold Photo.locationStep
  split
  · split_ifs
    · exact Photo.titleFromLocation_eq_or E m _ labels
    · exact Or.inl rfl
  · exact Or.inl rfl

theorem Photo.UpdateTitle_eq_or (E : Env) (m : Photo) (labels : List ClassifyLabel) :
    (m.UpdateTitle E labels).1 = m ∨ (m.UpdateTitle E labels).1.TitleSrc = E.SrcAuto := by
  have hs := Photo.locationStep_eq_or E m labels
  unfold Photo.UpdateTitle
  simp only
  generalize m.locationStep E labels = s at hs ⊢
  split_ifs
  · exact Or.inl rfl
  · rcases Photo.titleFromLabels_eq_or E s.1 s.2 with h | h
    · rw [h]
      exact hs
    · exact Or.inr h
  · exact hs

/-- C3: `UpdateTitle` returns an error if and only if the title source is not
`Auto` and the title is non-empty, and then the record is unchanged, so that a
manually set title is never overwritten; whenever it returns nil and the title
differs afterwards, the new title source is `Auto`. -/
theorem C3_UpdateTitle_error_iff_modified (E : Env) (m : Photo) (labels : List ClassifyLabel) :
    ((m.UpdateTitle E labels).2.isSome = true ↔
      (m.TitleSrc ≠ E.SrcAuto ∧ m.PhotoTitle ≠ "")) ∧
    ((m.UpdateTitle E labels).2.isSome = true → (m.UpdateTitle E labels).1 = m) ∧
    ((m.UpdateTitle E labels).2 = none →
      (m.UpdateTitle E labels).1.PhotoTitle ≠ m.PhotoTitle →
      (m.UpdateTitle E labels).1.TitleSrc = E.SrcAuto) ∧
    (E.SrcManual ≠ E.SrcAuto → m.TitleSrc = E.SrcManual → m.PhotoTitle ≠ "" →
      (m.UpdateTitle E labels).1 = m) := by
  have herr : (m.UpdateTitle E labels).2.isSome = true ↔
      (m.TitleSrc ≠ E.SrcAuto ∧ m.PhotoTitle ≠ "") := by
    unfold Photo.UpdateTitle Photo.HasTitle
    by_cases h1 : m.TitleSrc = E.SrcAuto <;> by_cases h2 : m.PhotoTitle = "" <;>
      simp [h1, h2] <;> split_ifs <;> rfl
  have hsame : (m.UpdateTitle E labels).2.isSome = true → (m.UpdateTitle E labels).1 = m := by
    intro h
    have h' := herr.1 h
    unfold Photo.UpdateTitle Photo.HasTitle
    simp [h'.1, h'.2]
  refine ⟨herr, hsame, fun _ hne => ?_, fun hma hsrc ht => ?_⟩
  · rcases Photo.UpdateTitle_eq_or E m labels with h | h
    · rw [h] at hne
      exact absurd rfl hne
    · exact h
  · exact hsame (herr.2 ⟨by rw [hsrc]; exact hma, ht⟩)

/-- C3, at a record with the manual title `Mine`: `UpdateTitle` leaves the
record as it is. -/
theorem C3_witness_manual_title_kept :
    (({ emptyPhoto with PhotoTitle := "Mine", TitleSrc := "manual" } : Photo).UpdateTitle
      refEnv []).1 = { emptyPhoto with PhotoTitle := "Mine", TitleSrc := "manual" } :=
  (C3_UpdateTitle_error_iff_modified refEnv
    { emptyPhoto with PhotoTitle := "Mine", TitleSrc := "manual" } []).2.2.2
    (by decide) rfl (by decide)


theorem Photo.SetTitle_auto (E : Env) (m : Photo) (title : String)
    (hrun : m.TitleSrc = E.SrcAuto ∨ m.PhotoTitle = "")
    (hclip : E.Clip title E.ClipDefault ≠ "") :
    m.SetTitle E title E.SrcAuto =
      { m with PhotoTitle := E.Clip title E.ClipDefault, TitleSrc := E.SrcAuto } := by
  rw [Photo.SetTitle_eq, if_pos]
  refine ⟨hclip, ?_⟩
  rcases hrun with h | h
  · exact Or.inl (Or.inl h)
  · exact Or.inr h

theorem Photo.titleFromLabels_eq (E : Env) (m : Photo) (labels : List ClassifyLabel) :
    m.titleFromLabels E labels = m.SetTitle E (fallbackTitle E m labels) E.SrcAuto := by
  unfold Photo.titleFromLabels fallbackTitle
  cases labels with
  | nil =>
    by_cases h1 : m.TakenAtLocal.IsZero = true <;> by_cases h2 : m.TakenSrc = E.SrcAuto <;>
      simp [h1, h2]
  | cons l ls =>
    by_cases h1 : m.TakenAtLocal.IsZero = true <;> by_cases h2 : m.TakenSrc = E.SrcAuto <;>
      by_cases h3 : l.Priority ≥ -1 <;> by_cases h4 : l.Uncertainty ≤ 85 <;>
      by_cases h5 : l.Name = "" <;> simp [h1, h2, h3, h4, h5]

theorem Photo.titleFromLocation_name_city (E : Env) (m : Photo) (loc : Photoprism.Location)
    (labels : List ClassifyLabel) (hl : (E.LabelsTitle labels (E.LocName loc)).1 = "")
    (hn : E.LocName loc ≠ "") (hc : E.LocCity loc ≠ "") :
    m.titleFromLocation E loc labels = m.SetTitle E (nameCityTitle E m loc) E.SrcAuto := by
  unfold Photo.titleFromLocation nameCityTitle
  by_cases h1 : len (E.LocName loc) > 45 <;> by_cases h2 : len (E.LocName loc) > 20 <;>
    by_cases h3 : len (E.LocCity loc) > 16 <;>
    by_cases h4 : stringsContains (E.LocName loc) (E.LocCity loc) = true <;>
    simp [hl, hn, hc, h1, h2, h3, h4]

theorem Photo.locationStep_not_loaded (E : Env) (m : Photo) (labels : List ClassifyLabel)
    (hno : m.LocationLoaded E = false) : m.locationStep E labels = (m, labels) := by
  unfold Photo.locationStep
  split
  · simp [hno]
  · rfl

/-- On a record on which `UpdateTitle` runs and whose location is not loaded,
the title becomes the fallback title, clipped, when that is not empty. -/
theorem Photo.UpdateTitle_fallback_without_location (E : Env) (m : Photo)
    (labels : List ClassifyLabel) (hrun : m.TitleSrc = E.SrcAuto ∨ m.PhotoTitle = "")
    (hno : m.LocationLoaded E = false)
    (hclip : E.Clip (fallbackTitle E m labels) E.ClipDefault ≠ "") :
    m.UpdateTitle E labels =
      ({ m with PhotoTitle := E.Clip (fallbackTitle E m labels) E.ClipDefault,
                TitleSrc := E.SrcAuto }, none) := by
  have hg : (m.TitleSrc != E.SrcAuto && m.HasTitle) = false := by
    unfold Photo.HasTitle
    rcases hrun with h | h <;> simp [h]
  unfold Photo.UpdateTitle
  rw [Photo.locationStep_not_loaded E m labels hno]
  simp only [hg, hno, Bool.false_eq_true, if_false, Bool.not_false, Bool.true_or, if_true]
  rw [Photo.titleFromLabels_eq, Photo.SetTitle_auto E m _ hrun hclip]

/-- On a record that carries a non-empty automatic title and whose loaded
location gives no title in step 1, `UpdateTitle` skips the fallback and leaves
the record as it is. -/
theorem Photo.UpdateTitle_keeps_title_when_location_gives_none (E : Env) (m : Photo)
    (labels : List ClassifyLabel) (hauto : m.TitleSrc = E.SrcAuto) (ht : m.PhotoTitle ≠ "")
    (hloaded : m.LocationLoaded E = true) (hstep : (m.locationStep E labels).1 = m) :
    m.UpdateTitle E labels = (m, none) := by
  unfold Photo.UpdateTitle
  simp only [hstep]
  simp [hauto, hloaded, Photo.NoTitle, ht]

/-- C9: what `UpdateTitle` does on a record that carries the automatically
generated title `Old`, whose location is loaded while no location branch
produces a title, and that has no label: the call returns nil and the title
stays `Old`; it does not become the sentinel `TitleUnknown`, which is what a
record without a loaded location gets in the same state. -/
theorem C9_stale_title_survives_loaded_location :
    staleTitled.TitleSrc = refEnv.SrcAuto ∧
    staleTitled.LocationLoaded refEnv = true ∧
    staleTitled.locationStep refEnv [] = (staleTitled, []) ∧
    staleTitled.UpdateTitle refEnv [] = (staleTitled, none) ∧
    (staleTitled.UpdateTitle refEnv []).1.PhotoTitle ≠ refEnv.TitleUnknown ∧
    (({ staleTitled with Location := none } : Photo).UpdateTitle refEnv []).1.PhotoTitle =
      refEnv.TitleUnknown := by
  decide

/-- C10, as stated, fails: with a place name of 46 bytes, the city `Ulm` and
no label, the title is the place name alone, not the name followed by the
year. -/
theorem C10_counterexample_long_name_has_no_year :
    (photoAt (locationOf longName "Ulm" "de")).LocationLoaded refEnv = true ∧
    (refEnv.LabelsTitle [] longName).1 = "" ∧
    len longName > 45 ∧
    ((photoAt (locationOf longName "Ulm" "de")).UpdateTitle refEnv []).1.PhotoTitle = longName ∧
    ((photoAt (locationOf longName "Ulm" "de")).UpdateTitle refEnv []).1.PhotoTitle ≠
      sprintf2 longName "2020" := by
  decide

/-- C10, amended: on a record on which `UpdateTitle` runs, with a loaded
location that has a non-empty place name and a non-empty city, and with no
usable label title, the title becomes, clipped by the title rule and with
source `Auto`: the title-cased name alone when the name is longer than 45
bytes; `<Name> / <Year>` when the name is at most 45 bytes and is longer than
20 bytes, or the city is longer than 16 bytes, or the name contains the city;
`<Name> / <City> / <Year>` otherwise; `<Year>` is `TakenAt.Format("2006")`.
The clipped title is taken to be non-empty. -/
theorem C10_name_city_title (E : Env) (m : Photo) (loc : Location)
    (labels : List ClassifyLabel) (hrun : m.TitleSrc = E.SrcAuto ∨ m.PhotoTitle = "")
    (hloc : m.Location = some loc) (hloaded : m.LocationLoaded E = true)
    (hn : E.LocName loc ≠ "") (hc : E.LocCity loc ≠ "")
    (hl : (E.LabelsTitle labels (E.LocName loc)).1 = "")
    (hclip : E.Clip (nameCityTitle E m loc) E.ClipDefault ≠ "") :
    m.UpdateTitle E labels =
      ({ m with PhotoTitle := E.Clip (nameCityTitle E m loc) E.ClipDefault,
                TitleSrc := E.SrcAuto }, none) ∧
    nameCityTitle E m loc =
      (if len (E.LocName loc) > 45 then E.Title (E.LocName loc)
       else if len (E.LocName loc) > 20 ∨ len (E.LocCity loc) > 16 ∨
           stringsContains (E.LocName loc) (E.LocCity loc) = true then
         E.LocName loc ++ " / " ++ m.TakenAt.FormatYear
       else E.LocName loc ++ " / " ++ E.LocCity loc ++ " / " ++ m.TakenAt.FormatYear) := by
  refine ⟨?_, rfl⟩
  have hg : (m.TitleSrc != E.SrcAuto && m.HasTitle) = false := by
    unfold Photo.HasTitle
    rcases hrun with h | h <;> simp [h]
  have hstep : (m.locationStep E labels).1 =
      { m with PhotoTitle := E.Clip (nameCityTitle E m loc) E.ClipDefault,
               TitleSrc := E.SrcAuto } := by
    unfold Photo.locationStep
    split
    · rename_i l hl'
      have hll : l = loc := by
        rw [hloc] at hl'
        exact (Option.some.inj hl').symm
      subst hll
      simp only [hloaded, if_true]
      rw [Photo.titleFromLocation_name_city E m l labels hl hn hc,
        Photo.SetTitle_auto E m _ hrun hclip]
    · rename_i hnone
      rw [hloc] at hnone
      cases hnone
  have hnt : (m.locationStep E labels).1.NoTitle = false := by
    rw [hstep]
    unfold Photo.NoTitle
    simpa using hclip
  unfold Photo.UpdateTitle
  simp only [hg, hloaded, hnt, Bool.false_eq_true, if_false, Bool.not_true, Bool.or_self]
  rw [hstep]

/-- C10, amended, at the place name `Pier 39` in the city `Ulm`: the title is
`Pier 39 / Ulm / 2020`. -/
theorem C10_witness_pier_39 :
    (photoAt (locationOf "Pier 39" "Ulm" "de")).UpdateTitle refEnv [] =
      ({ photoAt (locationOf "Pier 39" "Ulm" "de") with
          PhotoTitle := refEnv.Clip
            (nameCityTitle refEnv (photoAt (locationOf "Pier 39" "Ulm" "de"))
              (locationOf "Pier 39" "Ulm" "de")) refEnv.ClipDefault,
          TitleSrc := refEnv.SrcAuto }, none) ∧
    refEnv.Clip
      (nameCityTitle refEnv (photoAt (locationOf "Pier 39" "Ulm" "de"))
        (locationOf "Pier 39" "Ulm" "de")) refEnv.ClipDefault = "Pier 39 / Ulm / 2020" :=
  ⟨(C10_name_city_title refEnv (photoAt (locationOf "Pier 39" "Ulm" "de"))
      (locationOf "Pier 39" "Ulm" "de") [] (Or.inl rfl) rfl (by decide) (by decide) (by decide)
      (by decide) (by decide)).1, by decide⟩


/-! ## Label associator -/

theorem Db.findPhotoLabel_key (db : Db) (pid lid : Nat) (pl : PhotoLabel)
    (h : db.findPhotoLabel pid lid = some pl) : pl.PhotoID = pid ∧ pl.LabelID = lid := by
  unfold Db.findPhotoLabel at h
  have := List.find?_some h
  simpa using this

theorem Db.findPhotoLabel_save (db : Db) (plm : PhotoLabel) (pid lid : Nat) :
    (db.SavePhotoLabel plm).findPhotoLabel pid lid =
      if pid = plm.PhotoID ∧ lid = plm.LabelID then
        (db.findPhotoLabel pid lid).map (fun _ => plm)
      else db.findPhotoLabel pid lid := by
  unfold Db.SavePhotoLabel Db.findPhotoLabel
  simp only
  induction db.PhotosLabels with
  | nil => simp
  | cons r rs ih =>
    simp only [List.map_cons, List.find?_cons]
    by_cases hk : pid = plm.PhotoID ∧ lid = plm.LabelID
    · obtain ⟨h1, h2⟩ := hk
      subst h1 h2
      simp only [and_self, if_true] at ih ⊢
      by_cases hr : (r.PhotoID == plm.PhotoID && r.LabelID == plm.LabelID) = true
      · simp [hr]
      · simp only [hr]
        simp only [Bool.not_eq_true] at hr
        simp only [hr, Bool.false_eq_true, if_false]
        exact ih
    · simp only [hk, if_false] at ih ⊢
      by_cases hr : (r.PhotoID == plm.PhotoID && r.LabelID == plm.LabelID) = true
      · have h1 : (r.PhotoID == pid && r.LabelID == lid) = false := by
          simp at hr ⊢
          omega
        have h2 : (plm.PhotoID == pid && plm.LabelID == lid) = false := by
          simp
          omega
        simp only [hr, if_true, h1, h2]
        exact ih
      · simp only [Bool.not_eq_true] at hr
        simp only [hr, Bool.false_eq_true, if_false]
        cases hm : (r.PhotoID == pid && r.LabelID == lid)
        · simpa using ih
        · rfl


theorem Photo.resolveLabel_photosLabels (E : Env) (db : Db) (label : ClassifyLabel) :
    (Photo.resolveLabel E db label).1.PhotosLabels = db.PhotosLabels := by
  unfold Photo.resolveLabel Label.FirstOrCreate
  split <;> simp only <;> split_ifs <;> rfl

theorem Db.findPhotoLabel_congr (db db' : Db) (h : db'.PhotosLabels = db.PhotosLabels)
    (pid lid : Nat) : db'.findPhotoLabel pid lid = db.findPhotoLabel pid lid := by
  unfold Db.findPhotoLabel
  rw [h]

theorem Photo.mergePhotoLabel_find (m : Photo) (db : Db) (labelID : Nat)
    (label : ClassifyLabel) (pid lid : Nat) (pl : PhotoLabel)
    (h : db.findPhotoLabel pid lid = some pl) :
    (m.mergePhotoLabel db labelID label).findPhotoLabel pid lid =
      some (if pid = m.ID ∧ lid = labelID ∧ pl.Uncertainty > label.Uncertainty ∧
              pl.Uncertainty < 100 then
            { pl with Uncertainty := label.Uncertainty, LabelSrc := label.Source }
          else pl) := by
  unfold Photo.mergePhotoLabel PhotoLabel.FirstOrCreate NewPhotoLabel
  simp only
  cases hf : db.findPhotoLabel m.ID labelID with
  | none =>
    have hne : ¬ (pid = m.ID ∧ lid = labelID) := by
      rintro ⟨h1, h2⟩
      rw [h1, h2, hf] at h
      cases h
    simp only [gt_iff_lt, lt_self_iff_false, decide_False, Bool.false_and, Bool.false_eq_true,
      if_false]
    have hn : ¬ (pid = m.ID ∧ lid = labelID ∧ pl.Uncertainty > label.Uncertainty ∧
        pl.Uncertainty < 100) := fun hh => hne ⟨hh.1, hh.2.1⟩
    rw [if_neg hn]
    unfold Db.findPhotoLabel at h ⊢
    simp only [List.find?_append, h]
    rfl
  | some r0 =>
    simp only
    obtain ⟨hk1, hk2⟩ := Db.findPhotoLabel_key db m.ID labelID r0 hf
    by_cases hkey : pid = m.ID ∧ lid = labelID
    · have hpl : r0 = pl := by
        rw [hkey.1, hkey.2, hf] at h
        exact Option.some.inj h
      rw [← hpl]
      by_cases hc : r0.Uncertainty > label.Uncertainty ∧ r0.Uncertainty < 100
      · have hc' : (decide (r0.Uncertainty > label.Uncertainty) &&
            decide (r0.Uncertainty < 100)) = true := by simpa using hc
        rw [if_pos hc', Db.findPhotoLabel_save]
        simp [hf, hk1, hk2, hkey.1, hkey.2, hc.1, hc.2]
      · have hc' : ¬ (decide (r0.Uncertainty > label.Uncertainty) &&
            decide (r0.Uncertainty < 100)) = true := by simpa using hc
        have hn : ¬ (pid = m.ID ∧ lid = labelID ∧ r0.Uncertainty > label.Uncertainty ∧
            r0.Uncertainty < 100) := fun hh => hc hh.2.2
        rw [if_neg hc', if_neg hn, h, hpl]
    · have hn : ¬ (pid = m.ID ∧ lid = labelID ∧ pl.Uncertainty > label.Uncertainty ∧
          pl.Uncertainty < 100) := fun hh => hkey ⟨hh.1, hh.2.1⟩
      rw [if_neg hn]
      split_ifs
      · rw [Db.findPhotoLabel_save, if_neg, h]
        simp only [hk1, hk2]
        exact hkey
      · exact h

theorem Photo.addLabel_find (E : Env) (m : Photo) (db : Db) (label : ClassifyLabel)
    (pid lid : Nat) (pl : PhotoLabel) (h : db.findPhotoLabel pid lid = some pl) :
    (m.addLabel E db label).findPhotoLabel pid lid =
      some (if pid = m.ID ∧ lid = (Photo.resolveLabel E db label).2.ID ∧
              pl.Uncertainty > label.Uncertainty ∧ pl.Uncertainty < 100 then
            { pl with Uncertainty := label.Uncertainty, LabelSrc := label.Source }
          else pl) := by
  unfold Photo.addLabel
  simp only
  apply Photo.mergePhotoLabel_find
  rw [Db.findPhotoLabel_congr db _ (Photo.resolveLabel_photosLabels E db label)]
  exact h

theorem Photo.addLabels_never_increases (E : Env) (m : Photo) (labels : List ClassifyLabel) :
    ∀ (db : Db) (pid lid : Nat) (pl : PhotoLabel), db.findPhotoLabel pid lid = some pl →
      ∃ pl', (labels.foldl (m.addLabel E) db).findPhotoLabel pid lid = some pl' ∧
        pl'.Uncertainty ≤ pl.Uncertainty := by
  induction labels with
  | nil =>
    intro db pid lid pl h
    exact ⟨pl, h, le_refl _⟩
  | cons label rest ih =>
    intro db pid lid pl h
    have hstep := Photo.addLabel_find E m db label pid lid pl h
    obtain ⟨pl', h1, h2⟩ := ih _ pid lid _ hstep
    refine ⟨pl', h1, le_trans h2 ?_⟩
    split_ifs with hc
    · exact le_of_lt hc.2.2.1
    · exact le_refl _

/-- C7: when the association of a record with the label entity of an incoming
label already exists with uncertainty `u`, then after `AddLabels` with that
label, of uncertainty `v`, the stored uncertainty is `min u v` when `u < 100`
and `u` when `u ≥ 100`, so it has not increased, and the stored source is the
incoming source exactly when `v < u < 100` and is otherwise unchanged. Over a
whole list of incoming labels, no stored uncertainty increases. -/
theorem C7_AddLabels_uncertainty_never_increases (E : Env) (m : Photo) (db : Db) :
    (∀ (label : ClassifyLabel) (pl : PhotoLabel),
      db.findPhotoLabel m.ID (Photo.resolveLabel E db label).2.ID = some pl →
      ∃ pl', (m.AddLabels E db [label]).2.findPhotoLabel m.ID
          (Photo.resolveLabel E db label).2.ID = some pl' ∧
        pl'.Uncertainty =
          (if pl.Uncertainty < 100 then min pl.Uncertainty label.Uncertainty
           else pl.Uncertainty) ∧
        pl'.LabelSrc =
          (if label.Uncertainty < pl.Uncertainty ∧ pl.Uncertainty < 100 then label.Source
           else pl.LabelSrc) ∧
        pl'.Uncertainty ≤ pl.Uncertainty) ∧
    (∀ (labels : List ClassifyLabel) (pid lid : Nat) (pl : PhotoLabel),
      db.findPhotoLabel pid lid = some pl →
      ∃ pl', (m.AddLabels E db labels).2.findPhotoLabel pid lid = some pl' ∧
        pl'.Uncertainty ≤ pl.Uncertainty) := by
  refine ⟨fun label pl h => ?_, fun labels pid lid pl h => ?_⟩
  · have hstep := Photo.addLabel_find E m db label m.ID _ pl h
    refine ⟨_, hstep, ?_, ?_, ?_⟩
    · by_cases h1 : pl.Uncertainty > label.Uncertainty <;> by_cases h2 : pl.Uncertainty < 100
      · simp [h1, h2, min_eq_right (le_of_lt h1)]
      · simp [h1, h2]
      · simp [h1, h2, min_eq_left (not_lt.mp h1)]
      · simp [h1, h2]
    · by_cases h1 : pl.Uncertainty > label.Uncertainty <;> by_cases h2 : pl.Uncertainty < 100 <;>
        simp [h1, h2]
    · split_ifs with hc
      · exact le_of_lt hc.2.2.1
      · exact le_refl _
  · exact Photo.addLabels_never_increases E m labels db pid lid pl h

/-- C7, at the record 1 associated with the label `cat` at uncertainty 50
from `image`: an incoming `cat` of uncertainty 30 from `location` lowers the
stored uncertainty to 30 and overwrites the source. -/
theorem C7_witness_more_confident_label :
    ∃ pl', (recordOne.AddLabels refEnv (catStore 50) [catLabel 30]).2.findPhotoLabel
        recordOne.ID (Photo.resolveLabel refEnv (catStore 50) (catLabel 30)).2.ID = some pl' ∧
      pl'.Uncertainty =
        (if (50 : Int) < 100 then min 50 (catLabel 30).Uncertainty else 50) ∧
      pl'.LabelSrc =
        (if (catLabel 30).Uncertainty < 50 ∧ (50 : Int) < 100 then (catLabel 30).Source
         else "image") ∧
      pl'.Uncertainty ≤ 50 :=
  (C7_AddLabels_uncertainty_never_increases refEnv recordOne (catStore 50)).1 (catLabel 30)
    ⟨1, 1, "image", 50⟩ (by decide)


/-! ## Keyword indexer -/

theorem Photo.indexKeyword_mem (E : Env) (m : Photo) (acc : Db × List Nat) (w : String)
    (h : ∀ id ∈ acc.2, (⟨m.ID, id⟩ : PhotoKeyword) ∈ acc.1.PhotosKeywords) :
    ∀ id ∈ (m.indexKeyword E acc w).2,
      (⟨m.ID, id⟩ : PhotoKeyword) ∈ (m.indexKeyword E acc w).1.PhotosKeywords := by
  have hk : (Keyword.FirstOrCreate E acc.1 w).1.PhotosKeywords = acc.1.PhotosKeywords := by
    unfold Keyword.FirstOrCreate
    split <;> rfl
  unfold Photo.indexKeyword
  simp only
  split_ifs with hs
  · intro id hid
    rw [hk]
    exact h id hid
  · intro id hid
    simp only [List.mem_append, List.mem_singleton] at hid
    unfold PhotoKeyword.FirstOrCreate
    split_ifs with hc
    · rcases hid with hid | hid
      · rw [hk]; exact h id hid
      · rw [hid]
        simpa using hc
    · simp only [List.mem_append, List.mem_singleton]
      rcases hid with hid | hid
      · left; rw [hk]; exact h id hid
      · right; rw [hid]

theorem Photo.indexKeywords_mem (E : Env) (m : Photo) (ws : List String) :
    ∀ acc : Db × List Nat,
      (∀ id ∈ acc.2, (⟨m.ID, id⟩ : PhotoKeyword) ∈ acc.1.PhotosKeywords) →
      ∀ id ∈ (ws.foldl (m.indexKeyword E) acc).2,
        (⟨m.ID, id⟩ : PhotoKeyword) ∈ (ws.foldl (m.indexKeyword E) acc).1.PhotosKeywords := by
  induction ws with
  | nil => intro acc h; exact h
  | cons w rest ih =>
    intro acc h
    exact ih _ (Photo.indexKeyword_mem E m acc w h)

/-- `IndexKeywords` fails exactly when the details are not those of the
record, and then leaves the store as it is. -/
theorem Photo.IndexKeywords_error_iff (E : Env) (m : Photo) (db : Db) :
    ((m.IndexKeywords E db).2.isSome = true ↔ m.Details.PhotoID ≠ m.ID) ∧
    ((m.IndexKeywords E db).2.isSome = true → (m.IndexKeywords E db).1 = db) := by
  unfold Photo.IndexKeywords Photo.DetailsLoaded
  by_cases h : m.Details.PhotoID = m.ID <;> simp [h]

/-- When at least one keyword survives, the keyword ids associated with the
record after `IndexKeywords` are exactly the ids collected from the record. -/
theorem Photo.IndexKeywords_exact_of_survivor (E : Env) (m : Photo) (db : Db)
    (hd : m.Details.PhotoID = m.ID)
    (hne : ((m.keywordsOf E).foldl (m.indexKeyword E) (db, [])).2 ≠ []) (k : Nat) :
    k ∈ (m.IndexKeywords E db).1.keywordIdsOf m.ID ↔
      k ∈ ((m.keywordsOf E).foldl (m.indexKeyword E) (db, [])).2 := by
  have hinv := Photo.indexKeywords_mem E m (m.keywordsOf E) (db, [])
    (by intro id hid; cases hid)
  unfold Photo.IndexKeywords Photo.DetailsLoaded
  simp only [hd, beq_self_eq_true, Bool.not_true, Bool.false_eq_true, if_false]
  generalize (m.keywordsOf E).foldl (m.indexKeyword E) (db, []) = r at hne hinv ⊢
  unfold Db.keywordIdsOf Db.DeletePhotoKeywordsNotIn Db.sqlNotIn
  have he : r.2.isEmpty = false := by
    cases hr : r.2 with
    | nil => exact absurd hr hne
    | cons _ _ => rfl
  simp only [he, Bool.false_eq_true, if_false, List.mem_map, List.mem_filter]
  constructor
  · rintro ⟨pk, ⟨⟨hmem, hkeep⟩, hpid⟩, hk⟩
    simp only [beq_iff_eq] at hpid
    simp only [hpid, beq_self_eq_true, Bool.true_and, Bool.not_not] at hkeep
    rw [← hk]
    simpa using hkeep
  · intro hk
    refine ⟨⟨m.ID, k⟩, ⟨⟨hinv k hk, ?_⟩, ?_⟩, rfl⟩
    · simpa using hk
    · simp

theorem Photo.indexKeyword_keeps (E : Env) (m : Photo) (acc : Db × List Nat) (w : String)
    (pk : PhotoKeyword) (h : pk ∈ acc.1.PhotosKeywords) :
    pk ∈ (m.indexKeyword E acc w).1.PhotosKeywords := by
  have hk : (Keyword.FirstOrCreate E acc.1 w).1.PhotosKeywords = acc.1.PhotosKeywords := by
    unfold Keyword.FirstOrCreate
    split <;> rfl
  unfold Photo.indexKeyword
  simp only
  split_ifs with hs
  · rw [hk]; exact h
  · unfold PhotoKeyword.FirstOrCreate
    split_ifs
    · rw [hk]; exact h
    · simp only [List.mem_append]
      left; rw [hk]; exact h

theorem Photo.indexKeywords_keeps (E : Env) (m : Photo) (ws : List String) (pk : PhotoKeyword) :
    ∀ acc : Db × List Nat, pk ∈ acc.1.PhotosKeywords →
      pk ∈ (ws.foldl (m.indexKeyword E) acc).1.PhotosKeywords := by
  induction ws with
  | nil => intro acc h; exact h
  | cons w rest ih =>
    intro acc h
    exact ih _ (Photo.indexKeyword_keeps E m acc w pk h)

/-- When no keyword survives, `IndexKeywords` removes no association: every
keyword id associated with the record before the call is still associated
with it afterwards. -/
theorem Photo.IndexKeywords_keeps_all_when_none_survives (E : Env) (m : Photo) (db : Db)
    (hd : m.Details.PhotoID = m.ID)
    (hnone : ((m.keywordsOf E).foldl (m.indexKeyword E) (db, [])).2 = []) (k : Nat)
    (hk : k ∈ db.keywordIdsOf m.ID) : k ∈ (m.IndexKeywords E db).1.keywordIdsOf m.ID := by
  unfold Db.keywordIdsOf at hk
  simp only [List.mem_map, List.mem_filter] at hk
  obtain ⟨pk, ⟨hmem, hpid⟩, hkk⟩ := hk
  have hkeep := Photo.indexKeywords_keeps E m (m.keywordsOf E) pk (db, []) hmem
  unfold Photo.IndexKeywords Photo.DetailsLoaded
  simp only [hd, beq_self_eq_true, Bool.not_true, Bool.false_eq_true, if_false]
  rw [hnone]
  unfold Db.keywordIdsOf Db.DeletePhotoKeywordsNotIn Db.sqlNotIn
  simp only [List.mem_map, List.mem_filter]
  exact ⟨pk, ⟨⟨hkeep, by simp⟩, hpid⟩, hkk⟩

/-- C8: what `IndexKeywords` does when no keyword survives. Record 1, its
details loaded, has an empty title, description and details, or a title made
of a skipped keyword only, and the store associates it with keyword 7 from an
earlier title. No id is collected, the slice passed to `NOT IN (?)` is empty,
no row is deleted, and the stale association with keyword 7 is still there
after the call, which returns nil. -/
theorem C8_stale_association_survives_empty_keyword_set :
    recordOne.DetailsLoaded = true ∧
    recordOne.keywordsOf refEnv = [] ∧
    staleStore.keywordIdsOf recordOne.ID = [7] ∧
    (recordOne.IndexKeywords refEnv staleStore).2 = none ∧
    (recordOne.IndexKeywords refEnv staleStore).1.keywordIdsOf recordOne.ID = [7] ∧
    (({ recordOne with PhotoTitle := "the" } : Photo).keywordsOf refEnv = ["the"] ∧
      (({ recordOne with PhotoTitle := "the" } : Photo).IndexKeywords refEnv
        staleStore).1.keywordIdsOf recordOne.ID = [7]) := by
  decide

/-! ## Title synthesizer: city and country -/

theorem Photo.titleFromLocation_city_country (E : Env) (m : Photo)
    (loc : Photoprism.Location) (labels : List ClassifyLabel)
    (hl : (E.LabelsTitle labels (E.LocName loc)).1 = "") (hn : E.LocName loc = "")
    (hc : E.LocCity loc ≠ "") (hco : E.LocCountryName loc ≠ "") :
    m.titleFromLocation E loc labels = m.SetTitle E (cityCountryTitle E m loc) E.SrcAuto := by
  unfold Photo.titleFromLocation cityCountryTitle
  rw [hn] at hl
  by_cases h1 : len (E.LocCity loc) > 20 <;> simp [hl, hn, hc, hco, h1]

theorem sprintf_ne_empty (a b : String) (ha : a ≠ "") : a ++ b ≠ "" := by
  intro h
  apply ha
  have hd : (a ++ b).data = [] := by rw [h]
  rw [String.data_append] at hd
  have : a.data = [] := (List.append_eq_nil.mp hd).1
  exact String.ext this

theorem cityCountryTitle_ne_empty (E : Env) (m : Photo) (loc : Location)
    (hc : E.LocCity loc ≠ "") : cityCountryTitle E m loc ≠ "" := by
  unfold cityCountryTitle sprintf2 sprintf3
  split_ifs
  · rw [String.append_assoc]
    exact sprintf_ne_empty _ _ hc
  · rw [String.append_assoc, String.append_assoc, String.append_assoc]
    exact sprintf_ne_empty _ _ hc

/-- C11, as stated, fails: the city `Владивосток` has 11 characters, which is
at most 20, but 22 bytes, which is more than 20. On a record on which
`UpdateTitle` runs, with a loaded location that has no place name, this city
and the country name `Russia`, and with no label, the title is
`Владивосток / 2020`, not `Владивосток / Russia / 2020`. -/
theorem C11_counterexample_city_length_in_bytes :
    (photoAt (locationOf "" "Владивосток" "ru")).TitleSrc = refEnv.SrcAuto ∧
    (photoAt (locationOf "" "Владивосток" "ru")).LocationLoaded refEnv = true ∧
    refEnv.LocName (locationOf "" "Владивосток" "ru") = "" ∧
    refEnv.LocCity (locationOf "" "Владивосток" "ru") = "Владивосток" ∧
    refEnv.LocCountryName (locationOf "" "Владивосток" "ru") = "Russia" ∧
    (refEnv.LabelsTitle [] "").1 = "" ∧
    "Владивосток".length = 11 ∧
    len "Владивосток" = 22 ∧
    ((photoAt (locationOf "" "Владивосток" "ru")).UpdateTitle refEnv []).1.PhotoTitle =
      "Владивосток / 2020" ∧
    ((photoAt (locationOf "" "Владивосток" "ru")).UpdateTitle refEnv []).1.PhotoTitle ≠
      "Владивосток / Russia / 2020" := by
  decide

/-- C11, amended: on a record on which `UpdateTitle` runs, with a loaded
location that has no place name, a non-empty city and a non-empty country
name, and with no usable label title, the title passed to the title rule is
`<City> / <Country> / <Year>` when the city is at most 20 bytes long (Go's
`len`) and `<City> / <Year>` when it is longer than 20 bytes, `<Year>` being
`TakenAt.Format("2006")`; the title stored is that title as the title rule
clips it, with source `Auto`, and is that very title when clipping leaves it
as it is. -/
theorem C11_city_country_title (E : Env) (m : Photo) (loc : Location)
    (labels : List ClassifyLabel) (hrun : m.TitleSrc = E.SrcAuto ∨ m.PhotoTitle = "")
    (hloc : m.Location = some loc) (hloaded : m.LocationLoaded E = true)
    (hn : E.LocName loc = "") (hc : E.LocCity loc ≠ "") (hco : E.LocCountryName loc ≠ "")
    (hl : (E.LabelsTitle labels (E.LocName loc)).1 = "") :
    cityCountryTitle E m loc =
      (if len (E.LocCity loc) > 20 then E.LocCity loc ++ " / " ++ m.TakenAt.FormatYear
       else E.LocCity loc ++ " / " ++ E.LocCountryName loc ++ " / " ++ m.TakenAt.FormatYear) ∧
    (E.Clip (cityCountryTitle E m loc) E.ClipDefault ≠ "" →
      m.UpdateTitle E labels =
        ({ m with PhotoTitle := E.Clip (cityCountryTitle E m loc) E.ClipDefault,
                  TitleSrc := E.SrcAuto }, none)) ∧
    (E.Clip (cityCountryTitle E m loc) E.ClipDefault = cityCountryTitle E m loc →
      (m.UpdateTitle E labels).1.PhotoTitle = cityCountryTitle E m loc ∧
      (m.UpdateTitle E labels).1.TitleSrc = E.SrcAuto ∧
      (m.UpdateTitle E labels).2 = none) := by
  have hg : (m.TitleSrc != E.SrcAuto && m.HasTitle) = false := by
    unfold Photo.HasTitle
    rcases hrun with h | h <;> simp [h]
  have main : E.Clip (cityCountryTitle E m loc) E.ClipDefault ≠ "" →
      m.UpdateTitle E labels =
        ({ m with PhotoTitle := E.Clip (cityCountryTitle E m loc) E.ClipDefault,
                  TitleSrc := E.SrcAuto }, none) := by
    intro hclip
    have hstep : (m.locationStep E labels).1 =
        { m with PhotoTitle := E.Clip (cityCountryTitle E m loc) E.ClipDefault,
                 TitleSrc := E.SrcAuto } := by
      unfold Photo.locationStep
      split
      · rename_i l hl'
        have hll : l = loc := by
          rw [hloc] at hl'
          exact (Option.some.inj hl').symm
        subst hll
        simp only [hloaded, if_true]
        rw [Photo.titleFromLocation_city_country E m l labels hl hn hc hco,
          Photo.SetTitle_auto E m _ hrun hclip]
      · rename_i hnone
        rw [hloc] at hnone
        cases hnone
    have hnt : (m.locationStep E labels).1.NoTitle = false := by
      rw [hstep]
      unfold Photo.NoTitle
      simpa using hclip
    unfold Photo.UpdateTitle
    simp only [hg, hloaded, hnt, Bool.false_eq_true, if_false, Bool.not_true, Bool.or_self]
    rw [hstep]
  refine ⟨rfl, main, fun hid => ?_⟩
  have hne : E.Clip (cityCountryTitle E m loc) E.ClipDefault ≠ "" := by
    rw [hid]
    exact cityCountryTitle_ne_empty E m loc hc
  rw [main hne]
  exact ⟨hid, rfl, rfl⟩

/-- C11, amended, at the city `Berlin` in Germany, without a place name and
without labels, on a record taken in 2020: the title becomes
`Berlin / Germany / 2020` with source `Auto`. -/
theorem C11_witness_berlin_germany :
    ((photoAt (locationOf "" "Berlin" "de")).UpdateTitle refEnv []).1.PhotoTitle =
        cityCountryTitle refEnv (photoAt (locationOf "" "Berlin" "de"))
          (locationOf "" "Berlin" "de") ∧
    ((photoAt (locationOf "" "Berlin" "de")).UpdateTitle refEnv []).1.TitleSrc =
        refEnv.SrcAuto ∧
    ((photoAt (locationOf "" "Berlin" "de")).UpdateTitle refEnv []).2 = none ∧
    cityCountryTitle refEnv (photoAt (locationOf "" "Berlin" "de"))
        (locationOf "" "Berlin" "de") = "Berlin / Germany / 2020" :=
  ⟨((C11_city_country_title refEnv (photoAt (locationOf "" "Berlin" "de"))
      (locationOf "" "Berlin" "de") [] (Or.inl rfl) rfl (by decide) (by decide) (by decide)
      (by decide) (by decide)).2.2 (by decide)).1,
   ((C11_city_country_title refEnv (photoAt (locationOf "" "Berlin" "de"))
      (locationOf "" "Berlin" "de") [] (Or.inl rfl) rfl (by decide) (by decide) (by decide)
      (by decide) (by decide)).2.2 (by decide)).2.1,
   ((C11_city_country_title refEnv (photoAt (locationOf "" "Berlin" "de"))
      (locationOf "" "Berlin" "de") [] (Or.inl rfl) rfl (by decide) (by decide) (by decide)
      (by decide) (by decide)).2.2 (by decide)).2.2,
   by decide⟩

/-! ## Coordinates: the validity filter and the predicate -/

/-- After a call of `SetCoordinates` that stores its candidate, `HasLatLng`
holds exactly when neither coordinate is zero. -/
theorem Photo.HasLatLng_after_SetCoordinates (E : Env) (m : Photo) (lat lng : Float32)
    (altitude : Int) (source : String)
    (hv : ¬ (lat.eqZero = true ∧ lng.eqZero = true)) (hp : E.Precedes m.LocSrc source) :
    (m.SetCoordinates E lat lng altitude source).HasLatLng =
      (!lat.eqZero && !lng.eqZero) := by
  rw [Photo.SetCoordinates_eq, if_pos ⟨hv, hp⟩]
  rfl

/-- C13: what the code does with a point on the equator. `SetCoordinates` with
latitude 0 and longitude 5 from `manual` passes the validity filter, which
rejects only a candidate with both coordinates zero, and stores all four
fields; on the resulting record `HasLatLng`, which requires both coordinates
to be non-zero, returns false and `NoLatLng` returns true. -/
theorem C13_equator_stored_but_HasLatLng_false :
    (emptyPhoto.SetCoordinates refEnv ⟨0⟩ ⟨1084227584⟩ 0 "manual").PhotoLat = ⟨0⟩ ∧
    (emptyPhoto.SetCoordinates refEnv ⟨0⟩ ⟨1084227584⟩ 0 "manual").PhotoLng = ⟨1084227584⟩ ∧
    (emptyPhoto.SetCoordinates refEnv ⟨0⟩ ⟨1084227584⟩ 0 "manual").LocSrc = "manual" ∧
    (emptyPhoto.SetCoordinates refEnv ⟨0⟩ ⟨1084227584⟩ 0 "manual").HasLatLng = false ∧
    (emptyPhoto.SetCoordinates refEnv ⟨0⟩ ⟨1084227584⟩ 0 "manual").NoLatLng = true := by
  decide

/-! ## Path title deriver -/

theorem digitChar_spec (d : Nat) : (digitChar d).isDigit = true ∧ digitChar d ≠ '/' := by
  unfold digitChar
  have h : d % 10 < 10 := Nat.mod_lt d (by decide)
  generalize d % 10 = r at h
  interval_cases r <;> decide

theorem dropWhile_separators_append (i : Nat) (l : List Char) :
    (separators i ++ l).dropWhile (fun c => c == '/') = l.dropWhile (fun c => c == '/') := by
  unfold separators
  induction i with
  | zero => simp
  | succ n ih => simp [List.replicate_succ, List.dropWhile_cons, ih]

theorem dropWhile_separators (j : Nat) :
    (separators j).dropWhile (fun c => c == '/') = [] := by
  have h := dropWhile_separators_append j []
  simpa using h

theorem trimSeparators_core (core : List Char) (i j : Nat)
    (hhead : ∀ c, core.head? = some c → c ≠ '/')
    (hlast : ∀ c, core.getLast? = some c → c ≠ '/') :
    trimSeparators (separators i ++ core ++ separators j) = core := by
  unfold trimSeparators
  rw [List.append_assoc, dropWhile_separators_append]
  cases core with
  | nil => simp [dropWhile_separators]
  | cons c cs =>
    have hc : c ≠ '/' := hhead c rfl
    have h1 : ((c :: cs) ++ separators j).dropWhile (fun c => c == '/') =
        (c :: cs) ++ separators j := by
      simp [List.dropWhile_cons, hc]
    rw [h1, List.reverse_append]
    have h2 : (separators j).reverse = separators j := by
      unfold separators
      simp
    rw [h2, dropWhile_separators_append]
    have h3 : (c :: cs).reverse.head? = (c :: cs).getLast? := List.head?_reverse _
    cases hr : (c :: cs).reverse with
    | nil => simp at hr
    | cons z zs =>
      rw [hr] at h3
      have hz : z ≠ '/' := hlast z h3.symm
      simp only [List.dropWhile_cons, beq_iff_eq, hz, if_false]
      rw [← hr, List.reverse_reverse]

theorem splitSegments_append (a b : List Char) (ha : '/' ∉ a) :
    splitSegments (a ++ '/' :: b) = a :: splitSegments b := by
  induction a with
  | nil => simp [splitSegments]
  | cons c cs ih =>
    have hc : c ≠ '/' := fun h => ha (by rw [h]; exact List.mem_cons_self _ _)
    have hcs : '/' ∉ cs := fun h => ha (List.mem_cons_of_mem _ h)
    have e : (c :: cs) ++ '/' :: b = c :: (cs ++ '/' :: b) := rfl
    rw [e, splitSegments, ih hcs]
    simp [hc]

theorem splitSegments_single (a : List Char) (ha : '/' ∉ a) : splitSegments a = [a] := by
  induction a with
  | nil => simp [splitSegments]
  | cons c cs ih =>
    have hc : c ≠ '/' := fun h => ha (by rw [h]; exact List.mem_cons_self _ _)
    have hcs : '/' ∉ cs := fun h => ha (List.mem_cons_of_mem _ h)
    simp only [splitSegments, beq_iff_eq, hc, if_false, ih hcs]

theorem monthOfSegment_dec2 (m : Nat) (h1 : 1 ≤ m) (h2 : m ≤ 12) :
    monthOfSegment (dec2 m) = some m := by
  interval_cases m <;> decide

theorem dayOfSegment_dec2 (d : Nat) (h1 : 1 ≤ d) (h2 : d ≤ 31) :
    dayOfSegment (dec2 d) = some d := by
  interval_cases d <;> decide

theorem isYearSegment_dec4 (y : Nat) : isYearSegment (dec4 y) = true := by
  unfold isYearSegment dec4
  simp [(digitChar_spec _).1]

theorem dec4_no_separator (y : Nat) : '/' ∉ dec4 y := by
  unfold dec4
  simp only [List.mem_cons, List.mem_singleton, List.not_mem_nil, or_false, not_or]
  exact ⟨(digitChar_spec _).2.symm, (digitChar_spec _).2.symm, (digitChar_spec _).2.symm,
    (digitChar_spec _).2.symm⟩

theorem dec2_no_separator (n : Nat) : '/' ∉ dec2 n := by
  unfold dec2
  simp only [List.mem_cons, List.mem_singleton, List.not_mem_nil, or_false, not_or]
  exact ⟨(digitChar_spec _).2.symm, (digitChar_spec _).2.symm⟩


theorem head_ne_separator (a b : List Char) (ha : a ≠ []) (hs : '/' ∉ a) :
    ∀ c, (a ++ b).head? = some c → c ≠ '/' := by
  intro c hc
  cases a with
  | nil => exact absurd rfl ha
  | cons x xs =>
    simp only [List.cons_append, List.head?_cons, Option.some.injEq] at hc
    intro h
    apply hs
    rw [← h, ← hc]
    exact List.mem_cons_self _ _

theorem getLast_ne_separator (a b : List Char) (hb : b ≠ []) (hs : '/' ∉ b) :
    ∀ c, (a ++ b).getLast? = some c → c ≠ '/' := by
  intro c hc h
  apply hs
  rw [List.getLast?_append_of_ne_nil a hb] at hc
  rw [← h]
  exact List.mem_of_getLast?_eq_some hc

/-- A new folder for a path with a core that neither starts nor ends with a
separator: the stored path is the core, the title is that of its segments. -/
theorem NewFolder_of_core (root : String) (core : List Char) (i j : Nat) (hne : core ≠ [])
    (hhead : ∀ c, core.head? = some c → c ≠ '/')
    (hlast : ∀ c, core.getLast? = some c → c ≠ '/') :
    NewFolder root (String.mk (separators i ++ core ++ separators j)) =
      { Root := root, Path := String.mk core,
        FolderTitle := titleOfSegments root (splitSegments core), FolderDescription := "",
        FolderType := "", FolderOrder := SortOrderName, FolderFavorite := false,
        FolderIgnore := false, FolderWatch := false } := by
  have h1 : (String.mk core == RootPath) = false := by
    rw [beq_eq_false_iff_ne]
    intro h
    have hd : core = ['/'] := congrArg String.data h
    exact hhead '/' (by rw [hd]; rfl) rfl
  have h2 : (String.mk core == "") = false := by
    rw [beq_eq_false_iff_ne]
    intro h
    exact hne (congrArg String.data h)
  unfold NewFolder
  simp only [String.toList, trimSeparators_core core i j hhead hlast, h1, Bool.false_eq_true,
    if_false]
  unfold titleOfPath
  simp only [h1, h2, Bool.or_self, Bool.false_eq_true, if_false, String.toList]

theorem NewFolder_two_segments (root : String) (y m : List Char) (i j : Nat)
    (hy : '/' ∉ y) (hy0 : y ≠ []) (hm : '/' ∉ m) (hm0 : m ≠ []) :
    NewFolder root (String.mk (separators i ++ (y ++ '/' :: m) ++ separators j)) =
      { Root := root, Path := String.mk (y ++ '/' :: m),
        FolderTitle := titleOfSegments root [y, m], FolderDescription := "",
        FolderType := "", FolderOrder := SortOrderName, FolderFavorite := false,
        FolderIgnore := false, FolderWatch := false } := by
  rw [NewFolder_of_core root _ i j (by simp) (head_ne_separator y _ hy0 hy)
    (by
      have e : y ++ '/' :: m = (y ++ ['/']) ++ m := by simp
      rw [e]
      exact getLast_ne_separator _ m hm0 hm),
    splitSegments_append y m hy, splitSegments_single m hm]

theorem NewFolder_three_segments (root : String) (y m t : List Char) (i j : Nat)
    (hy : '/' ∉ y) (hy0 : y ≠ []) (hm : '/' ∉ m) (ht : '/' ∉ t) (ht0 : t ≠ []) :
    NewFolder root (String.mk (separators i ++ (y ++ '/' :: (m ++ '/' :: t)) ++ separators j)) =
      { Root := root, Path := String.mk (y ++ '/' :: (m ++ '/' :: t)),
        FolderTitle := titleOfSegments root [y, m, t], FolderDescription := "",
        FolderType := "", FolderOrder := SortOrderName, FolderFavorite := false,
        FolderIgnore := false, FolderWatch := false } := by
  rw [NewFolder_of_core root _ i j (by simp) (head_ne_separator y _ hy0 hy)
    (by
      have e : y ++ '/' :: (m ++ '/' :: t) = (y ++ '/' :: (m ++ ['/'])) ++ t := by simp
      rw [e]
      exact getLast_ne_separator _ t ht0 ht),
    splitSegments_append y _ hy, splitSegments_append m t hm, splitSegments_single t ht]

/-- A new folder for a path of separators only, the empty path and the root
marker among them: the stored path is empty and the title is the default
label of the root category. -/
theorem NewFolder_of_separators (root : String) (i : Nat) :
    NewFolder root (String.mk (separators i)) =
      { Root := root, Path := "", FolderTitle := rootLabel root, FolderDescription := "",
        FolderType := "", FolderOrder := SortOrderName, FolderFavorite := false,
        FolderIgnore := false, FolderWatch := false } := by
  have h := trimSeparators_core [] i 0 (by simp) (by simp)
  simp only [List.append_nil, separators, List.replicate_zero] at h
  have hp : ((String.mk [] : String) == RootPath) = false := by decide
  have he : ((String.mk [] : String) == "") = true := by decide
  unfold NewFolder
  simp only [String.toList, separators, h, hp, Bool.false_eq_true, if_false]
  unfold titleOfPath
  simp only [he, Bool.true_or, if_true]


theorem dayOfSegment_with_text (d : Nat) (text : List Char) :
    dayOfSegment (dec2 d ++ ' ' :: text) = none := by
  unfold dayOfSegment twoDigits dec2
  rfl

/-- The cases of `TestNewFolder` in folder_test.go. -/
theorem NewFolder_test_cases :
    NewFolder RootOriginals "2020/05" =
      { Root := RootOriginals, Path := "2020/05", FolderTitle := "May 2020",
        FolderDescription := "", FolderType := "", FolderOrder := SortOrderName,
        FolderFavorite := false, FolderIgnore := false, FolderWatch := false } ∧
    (NewFolder RootOriginals "/2020/05/01/").Path = "2020/05/01" ∧
    (NewFolder RootOriginals "/2020/05/01/").FolderTitle = "May 2020" ∧
    (NewFolder RootImport "/2020/05/23/").Path = "2020/05/23" ∧
    (NewFolder RootImport "/2020/05/23/").FolderTitle = "May 23, 2020" ∧
    (NewFolder RootOriginals "/2020/05/23 Birthday").Path = "2020/05/23 Birthday" ∧
    (NewFolder RootOriginals "/2020/05/23 Birthday").FolderTitle = "23 Birthday" ∧
    (NewFolder RootOriginals "").Path = "" ∧
    (NewFolder RootOriginals "").FolderTitle = "Originals" ∧
    (NewFolder RootOriginals RootPath).Path = "" ∧
    (NewFolder RootOriginals RootPath).FolderTitle = "Originals" := by
  decide

/-- C12: for every year `Y` written with four digits, every month `M` in
1..12 and every day `D` in 1..31 written with two digits, and any number of
leading and trailing separators, `NewFolder` stores the path without those
separators and sets the title to `<long month name> <Y>` for the path `Y/M`
under any root and for `Y/M/D` under a root other than the import root, to
`<long month name> <D>, <Y>` for `Y/M/D` under the import root, and to the
last segment as it stands for `Y/M/D <text>`; for the empty path, the root
marker and any path of separators only, the stored path is empty and the
title under the originals root is `Originals`. -/
theorem C12_NewFolder_path_title (root : String) (Y M D i j : Nat) (text : List Char)
    (hM : 1 ≤ M ∧ M ≤ 12) (hD : 1 ≤ D ∧ D ≤ 31) (htext : '/' ∉ text) :
    (NewFolder root (String.mk (separators i ++ (dec4 Y ++ '/' :: dec2 M) ++
        separators j))).Path = String.mk (dec4 Y ++ '/' :: dec2 M) ∧
    (NewFolder root (String.mk (separators i ++ (dec4 Y ++ '/' :: dec2 M) ++
        separators j))).FolderTitle = longMonthName M ++ " " ++ String.mk (dec4 Y) ∧
    (NewFolder root (String.mk (separators i ++ (dec4 Y ++ '/' :: (dec2 M ++ '/' :: dec2 D)) ++
        separators j))).Path = String.mk (dec4 Y ++ '/' :: (dec2 M ++ '/' :: dec2 D)) ∧
    (root ≠ RootImport →
      (NewFolder root (String.mk (separators i ++
        (dec4 Y ++ '/' :: (dec2 M ++ '/' :: dec2 D)) ++ separators j))).FolderTitle =
        longMonthName M ++ " " ++ String.mk (dec4 Y)) ∧
    (NewFolder RootImport (String.mk (separators i ++
        (dec4 Y ++ '/' :: (dec2 M ++ '/' :: dec2 D)) ++ separators j))).FolderTitle =
      longMonthName M ++ " " ++ toString D ++ ", " ++ String.mk (dec4 Y) ∧
    (NewFolder root (String.mk (separators i ++
        (dec4 Y ++ '/' :: (dec2 M ++ '/' :: (dec2 D ++ ' ' :: text))) ++ separators j))).Path =
      String.mk (dec4 Y ++ '/' :: (dec2 M ++ '/' :: (dec2 D ++ ' ' :: text))) ∧
    (NewFolder root (String.mk (separators i ++
        (dec4 Y ++ '/' :: (dec2 M ++ '/' :: (dec2 D ++ ' ' :: text))) ++
        separators j))).FolderTitle = String.mk (dec2 D ++ ' ' :: text) ∧
    (NewFolder RootOriginals (String.mk (separators i))).Path = "" ∧
    (NewFolder RootOriginals (String.mk (separators i))).FolderTitle = "Originals" := by
  have hy := dec4_no_separator Y
  have hm := dec2_no_separator M
  have hd := dec2_no_separator D
  have hy0 : dec4 Y ≠ [] := by simp [dec4]
  have hm0 : dec2 M ≠ [] := by simp [dec2]
  have hd0 : dec2 D ≠ [] := by simp [dec2]
  have ht : '/' ∉ dec2 D ++ ' ' :: text := by
    simp only [List.mem_append, List.mem_cons, not_or]
    exact ⟨hd, by decide, htext⟩
  have ht0 : dec2 D ++ ' ' :: text ≠ [] := by simp
  rw [NewFolder_two_segments root _ _ i j hy hy0 hm hm0,
    NewFolder_three_segments root _ _ _ i j hy hy0 hm hd hd0,
    NewFolder_three_segments RootImport _ _ _ i j hy hy0 hm hd hd0,
    NewFolder_three_segments root _ _ _ i j hy hy0 hm ht ht0,
    NewFolder_of_separators]
  simp only [titleOfSegments, isYearSegment_dec4, monthOfSegment_dec2 M hM.1 hM.2,
    dayOfSegment_dec2 D hD.1 hD.2, dayOfSegment_with_text]
  refine ⟨trivial, trivial, trivial, fun hr => ?_, ?_, trivial, trivial, trivial, ?_⟩
  · simp [hr]
  · simp
  · decide

/-- C12, at the year 2020, the month 5, the day 23 and the text `Birthday`,
with one leading and one trailing separator, under the originals root. -/
theorem C12_witness_may_2020 :
    (NewFolder RootOriginals (String.mk (separators 1 ++ (dec4 2020 ++ '/' :: dec2 5) ++
        separators 1))).FolderTitle = longMonthName 5 ++ " " ++ String.mk (dec4 2020) ∧
    (NewFolder RootImport (String.mk (separators 1 ++
        (dec4 2020 ++ '/' :: (dec2 5 ++ '/' :: dec2 23)) ++ separators 1))).FolderTitle =
      longMonthName 5 ++ " " ++ toString 23 ++ ", " ++ String.mk (dec4 2020) ∧
    (NewFolder RootOriginals (String.mk (separators 1 ++
        (dec4 2020 ++ '/' :: (dec2 5 ++ '/' :: (dec2 23 ++ ' ' :: "Birthday".toList))) ++
        separators 1))).FolderTitle = String.mk (dec2 23 ++ ' ' :: "Birthday".toList) ∧
    String.mk (separators 1 ++ (dec4 2020 ++ '/' :: dec2 5) ++ separators 1) = "/2020/05/" ∧
    longMonthName 5 ++ " " ++ String.mk (dec4 2020) = "May 2020" ∧
    longMonthName 5 ++ " " ++ toString 23 ++ ", " ++ String.mk (dec4 2020) = "May 23, 2020" ∧
    String.mk (dec2 23 ++ ' ' :: "Birthday".toList) = "23 Birthday" :=
  ⟨(C12_NewFolder_path_title RootOriginals 2020 5 23 1 1 "Birthday".toList (by decide)
      (by decide) (by decide)).2.1,
   (C12_NewFolder_path_title RootOriginals 2020 5 23 1 1 "Birthday".toList (by decide)
      (by decide) (by decide)).2.2.2.2.1,
   (C12_NewFolder_path_title RootOriginals 2020 5 23 1 1 "Birthday".toList (by decide)
      (by decide) (by decide)).2.2.2.2.2.2.1,
   by decide, by decide, by decide, by decide⟩

end Photoprism
